import Mathlib

/-!
Shallow embedding of `src/jsonlogger.py` (python-json-logger): a JSON log
formatter and a plain-text "extra" formatter over Python `logging` records.

Python values that can live in a record attribute, a message payload or a
JSON document are modelled by `JValue`; a `logging.LogRecord`'s `__dict__`
is modelled as an insertion-ordered association list (`LogRecord.attrs`),
matching `OrderedDict` / attribute-dictionary semantics: assigning to an
existing key replaces its value in place, assigning a fresh key appends it.
-/

set_option autoImplicit false

namespace JsonLogger

/-- One traceback frame of a captured exception: `tb_frame.f_code.co_filename`,
`tb_lineno`, `tb_frame.f_code.co_name`.  A traceback chain is modelled as the
list of its frames in linked order (`tb`, `tb.tb_next`, ...), whose head is
the outermost (oldest) frame, as in Python. -/
structure TBFrame where
  file : String
  ln : Int
  fn : String
deriving DecidableEq, Repr

/-- Python values as seen by this library: JSON primitives, lists, dicts
(insertion-ordered, string keys), the `datetime` classes handled by the
default JSON handler, an arbitrary object carrying its `str()` rendering
(`other`), and a captured `sys.exc_info()` triple (`excinfo`: exception type
name, exception message, traceback frames). -/
inductive JValue where
  | null : JValue
  | bool (b : Bool) : JValue
  | int (n : Int) : JValue
  | str (s : String) : JValue
  | arr (xs : List JValue) : JValue
  | obj (kvs : List (String × JValue)) : JValue
  | datetime (y mo d h mi s : Nat) : JValue
  | date (y mo d : Nat) : JValue
  | time (h mi s : Nat) : JValue
  | other (s : String) : JValue
  | excinfo (typeName : String) (excMsg : String) (trace : List TBFrame) : JValue
deriving Repr

/-- Python truthiness (`if value:`) for the modelled values. -/
def pyTruthy : JValue → Bool
  | .null => false
  | .bool b => b
  | .int n => n ≠ 0
  | .str s => s ≠ ""
  | .arr xs => ¬ xs.isEmpty
  | .obj kvs => ¬ kvs.isEmpty
  | _ => true

/-- Lookup in an insertion-ordered dict (first entry with the key). -/
def odLookup : List (String × JValue) → String → Option JValue
  | [], _ => none
  | kv :: rest, k => if kv.1 = k then some kv.2 else odLookup rest k

/-- `d[k] = v` on an insertion-ordered dict: replace the (unique) entry with
that key in place when present, append otherwise. -/
def odInsert : List (String × JValue) → String → JValue → List (String × JValue)
  | [], k, v => [(k, v)]
  | kv :: rest, k, v => if kv.1 = k then (k, v) :: rest else kv :: odInsert rest k v

/-- `d.update(other)`: insert every pair of `kvs` in order. -/
def odUpdate (l : List (String × JValue)) (kvs : List (String × JValue)) :
    List (String × JValue) :=
  kvs.foldl (fun t kv => odInsert t kv.1 kv.2) l

/-- Keys of an ordered dict, in order. -/
def odKeys (l : List (String × JValue)) : List String :=
  l.map Prod.fst

/-- A single-quote character, used by Python `repr` of strings. -/
def sq : String := String.singleton (Char.ofNat 39)

/-- Zero-pad a natural number to two digits (`strftime` field). -/
def pad2 (n : Nat) : String :=
  if n < 10 then "0" ++ toString n else toString n

/-- Zero-pad a natural number to four digits (`strftime` `%Y`). -/
def pad4 (n : Nat) : String :=
  if n < 10 then "000" ++ toString n
  else if n < 100 then "00" ++ toString n
  else if n < 1000 then "0" ++ toString n
  else toString n

mutual

/-- Python `str()` (`r = false`) and `repr()` (`r = true`) of a modelled
value, as used by `%s`-substitution and by `unicode(obj)`: list and dict
renderings show their elements with `repr`, so strings nested inside a
container are single-quoted while a top-level `str()` of a string is the
string itself. -/
def pyRender (r : Bool) (v : JValue) : String :=
  match v with
  | .null => "None"
  | .bool true => "True"
  | .bool false => "False"
  | .int n => toString n
  | .str s => if r then sq ++ s ++ sq else s
  | .arr xs => "[" ++ pyRenderList xs ++ "]"
  | .obj kvs => "\x7b" ++ pyRenderPairs kvs ++ "\x7d"
  | .datetime y mo d h mi s =>
      pad4 y ++ "-" ++ pad2 mo ++ "-" ++ pad2 d ++ " " ++
      pad2 h ++ ":" ++ pad2 mi ++ ":" ++ pad2 s
  | .date y mo d => pad4 y ++ "-" ++ pad2 mo ++ "-" ++ pad2 d
  | .time h mi s => pad2 h ++ ":" ++ pad2 mi ++ ":" ++ pad2 s
  | .other s => s
  | .excinfo t m _ => "(" ++ t ++ ", " ++ m ++ ")"

/-- Comma-joined `repr` renderings of list elements. -/
def pyRenderList (xs : List JValue) : String :=
  match xs with
  | [] => ""
  | [x] => pyRender true x
  | x :: rest => pyRender true x ++ ", " ++ pyRenderList rest

/-- Comma-joined `repr(key): repr(value)` renderings of dict entries. -/
def pyRenderPairs (kvs : List (String × JValue)) : String :=
  match kvs with
  | [] => ""
  | [kv] => sq ++ kv.1 ++ sq ++ ": " ++ pyRender true kv.2
  | kv :: rest => sq ++ kv.1 ++ sq ++ ": " ++ pyRender true kv.2 ++ ", " ++ pyRenderPairs rest

end

/-- Python `str()` of a value. -/
def pyStr (v : JValue) : String := pyRender false v

/-- `RESERVED_ATTRS` from the source: the natural `LogRecord` attributes that
are never treated as user-supplied extras. -/
def RESERVED_ATTRS : List String :=
  ["args", "asctime", "created", "exc_info", "exc_text", "filename",
   "funcName", "levelname", "levelno", "lineno", "module",
   "msecs", "message", "msg", "name", "pathname", "process",
   "processName", "relativeCreated", "thread", "threadName"]

/-- `datetime.strftime` over a (year, month, day, hour, minute, second)
tuple, for the directives the source uses (`%Y %m %d %H %M %S`, `%%`);
any other character is copied verbatim. -/
def strftimeAux (y mo d h mi s : Nat) : List Char → String
  | [] => ""
  | '%' :: c :: rest =>
      (if c = 'Y' then pad4 y
       else if c = 'm' then pad2 mo
       else if c = 'd' then pad2 d
       else if c = 'H' then pad2 h
       else if c = 'M' then pad2 mi
       else if c = 'S' then pad2 s
       else if c = '%' then "%"
       else String.mk ['%', c]) ++ strftimeAux y mo d h mi s rest
  | c :: rest => String.singleton c ++ strftimeAux y mo d h mi s rest

/-- `strftime` on a `String` pattern. -/
def strftime6 (pat : String) (y mo d h mi s : Nat) : String :=
  strftimeAux y mo d h mi s pat.data

/-- Scan the characters following a literal `(` for the shortest non-empty
capture of `re` pattern `\((.+?)\)`: `acc` holds the (reversed, non-empty)
capture so far; a newline aborts (`.` does not match it), the first `)`
after at least one captured character closes the group and the characters
after it are returned alongside the capture. -/
def scanCaptureGo (acc : List Char) : List Char → Option (List Char × List Char)
  | [] => none
  | c :: rest =>
      if c = ')' then some (acc.reverse, rest)
      else if c = '\n' then none
      else scanCaptureGo (c :: acc) rest

/-- Start the capture scan: the first character after `(` is always consumed
into the capture (the group needs at least one character). -/
def scanCapture : List Char → Option (List Char × List Char)
  | [] => none
  | c :: rest => if c = '\n' then none else scanCaptureGo [c] rest

/-- `re.findall(r'\((.+?)\)', fmt)`: left-to-right non-overlapping matches;
at a `(` with a valid capture the scan resumes after the closing `)`,
otherwise it advances one character.  Fuel is the remaining length, which
every step strictly decreases below. -/
def parseFmtAux : Nat → List Char → List String
  | 0, _ => []
  | _, [] => []
  | fuel + 1, c :: rest =>
      if c = '(' then
        match scanCapture rest with
        | some (cap, rest2) => String.mk cap :: parseFmtAux fuel rest2
        | none => parseFmtAux fuel rest
      else parseFmtAux fuel rest

/-- `JsonFormatter.parse` / `ExtraTextFormatter.parse`: the ordered list of
attribute names referenced by the format template. -/
def parseFmt (fmt : String) : List String :=
  parseFmtAux fmt.length fmt.data

/-- A `logging.LogRecord`: its `__dict__` as an insertion-ordered attribute
dictionary.  Well-formed records carry at least `msg`, `args`, `exc_info`
and `exc_text` (the framework always sets them); attribute reads of those
names fall back to Python `None` for totality. -/
structure LogRecord where
  attrs : List (String × JValue)
deriving Repr

/-- `getattr(record, k)` as an `Option`. -/
def LogRecord.getAttr (r : LogRecord) (k : String) : Option JValue :=
  odLookup r.attrs k

/-- `getattr(record, k)` defaulting to `None`. -/
def LogRecord.getAttrD (r : LogRecord) (k : String) : JValue :=
  (r.getAttr k).getD .null

/-- `setattr(record, k, v)` / `record.k = v`. -/
def LogRecord.setAttr (r : LogRecord) (k : String) (v : JValue) : LogRecord :=
  ⟨odInsert r.attrs k v⟩

/-- `record.msg`. -/
def LogRecord.msg (r : LogRecord) : JValue :=
  r.getAttrD "msg"

/-- `record.exc_info`, when it holds a captured `sys.exc_info()` triple
(exception type name, exception message, traceback frames); `None` or a
missing attribute mean "no exception". -/
def LogRecord.excInfo (r : LogRecord) : Option (String × String × List TBFrame) :=
  match r.getAttr "exc_info" with
  | some (.excinfo t m tr) => some (t, m, tr)
  | _ => none

/-- `key.startswith('_')`: the private-attribute marker test (true exactly
when the first character is an underscore). -/
def startsUnderscore (k : String) : Bool :=
  match k.data with
  | c :: _ => c = '_'
  | [] => false

/-- `merge_record_extra(record, target, reserved)` from the source: copy
every attribute of the record into the target dict, skipping reserved names
and names starting with the underscore private marker. -/
def merge_record_extra (record : LogRecord) (target : List (String × JValue))
    (reserved : List String) : List (String × JValue) :=
  record.attrs.foldl
    (fun tgt kv =>
      if kv.1 ∉ reserved ∧ ¬ (startsUnderscore kv.1) then odInsert tgt kv.1 kv.2
      else tgt)
    target

/-- Skip the flag/width/precision characters of a `%`-conversion
specification (flags, digits, `.`, `*`, length modifiers). -/
def dropConvFlags (cs : List Char) : List Char :=
  cs.dropWhile (fun c =>
    c = '-' ∨ c = '#' ∨ c = '0' ∨ c = '+' ∨ c = ' ' ∨ c = '.' ∨ c = '*' ∨
    c = 'h' ∨ c = 'l' ∨ c = 'L' ∨ c.isDigit)

/-- Render one conversion type applied to a value: `%r` uses `repr`, the
numeric and `%s` conversions use `str` (identical on the modelled values). -/
def convRender (c : Char) (v : JValue) : String :=
  if c = 'r' then pyRender true v else pyStr v

/-- Scan a `%(key)` format key, tracking nested parentheses as CPython does;
returns the key and the characters after the closing `)`. -/
def scanKey (depth : Nat) (acc : List Char) : List Char → Option (List Char × List Char)
  | [] => none
  | c :: rest =>
      if c = ')' then
        match depth with
        | 0 => some (acc.reverse, rest)
        | d + 1 => scanKey d (c :: acc) rest
      else if c = '(' then scanKey (depth + 1) (c :: acc) rest
      else scanKey depth (acc.cons c) rest

/-- Modelled from the Python standard library: `fmt % mapping` for the
`%(name)s`-keyed conversions used by `logging` templates.  A missing key is
a `KeyError` that propagates; `%%` is a literal percent; a bare (un-keyed)
conversion with a mapping argument is modelled as an error (no template in
this repository uses one).  Fuel is the remaining length, strictly
sufficient as every step consumes at least one character. -/
def pyFormatMapAux (m : List (String × JValue)) : Nat → List Char → Except String String
  | 0, _ => .error "ValueError: fuel"
  | _, [] => .ok ""
  | fuel + 1, c :: rest =>
      if c = '%' then
        match rest with
        | [] => .error "ValueError: incomplete format"
        | c2 :: rest2 =>
            if c2 = '%' then (pyFormatMapAux m fuel rest2).map (fun t => "%" ++ t)
            else if c2 = '(' then
              match scanKey 0 [] rest2 with
              | none => .error "ValueError: incomplete format key"
              | some (key, rest3) =>
                  match dropConvFlags rest3 with
                  | [] => .error "ValueError: incomplete format"
                  | conv :: rest4 =>
                      match odLookup m (String.mk key) with
                      | none => .error ("KeyError: " ++ String.mk key)
                      | some v =>
                          (pyFormatMapAux m fuel rest4).map
                            (fun t => convRender conv v ++ t)
            else .error "TypeError: format requires a mapping"
      else (pyFormatMapAux m fuel rest).map (fun t => String.singleton c ++ t)

/-- `fmt % mapping` on a `String` template. -/
def pyFormatMap (fmt : String) (m : List (String × JValue)) : Except String String :=
  pyFormatMapAux m (fmt.length + 1) fmt.data

/-- Modelled from the Python standard library: `fmt % args` with positional
(tuple) arguments.  `%%` is a literal percent, `%X` consumes the next
argument (a `TypeError` when none are left), a `%(name)X` keyed conversion
with a tuple argument is a `TypeError`, and the remaining arguments are
returned so that the caller can raise the `not all arguments converted`
`TypeError`.  Fuel is the remaining length, strictly sufficient as every
step consumes at least one character. -/
def pyFormatTupleAux : Nat → List Char → List JValue → Except String (String × List JValue)
  | 0, _, _ => .error "ValueError: fuel"
  | _, [], args => .ok ("", args)
  | fuel + 1, c :: rest, args =>
      if c = '%' then
        match rest with
        | [] => .error "ValueError: incomplete format"
        | c2 :: rest2 =>
            if c2 = '%' then
              (pyFormatTupleAux fuel rest2 args).map (fun p => ("%" ++ p.1, p.2))
            else if c2 = '(' then .error "TypeError: format requires a mapping"
            else
              match dropConvFlags (c2 :: rest2) with
              | [] => .error "ValueError: incomplete format"
              | conv :: rest3 =>
                  match args with
                  | [] => .error "TypeError: not enough arguments for format string"
                  | v :: args2 =>
                      (pyFormatTupleAux fuel rest3 args2).map
                        (fun p => (convRender conv v ++ p.1, p.2))
      else (pyFormatTupleAux fuel rest args).map (fun p => (String.singleton c ++ p.1, p.2))

/-- `fmt % args` for positional arguments on a `String` template: leftover
arguments raise the CPython `not all arguments converted` `TypeError`. -/
def pyFormatTuple (fmt : String) (args : List JValue) : Except String String :=
  match pyFormatTupleAux (fmt.length + 1) fmt.data args with
  | .error e => .error e
  | .ok (s, []) => .ok s
  | .ok (_, _ :: _) =>
      .error "TypeError: not all arguments converted during string formatting"

/-- Modelled from the Python standard library: `LogRecord.getMessage`, i.e.
`str(self.msg)`, with `msg % args` applied when `args` is truthy — keyed
substitution for a mapping, positional substitution for a tuple (any other
truthy object formats as a one-element tuple, as `%` does) — and any
`KeyError`/`TypeError` the `%`-formatting raises propagating to the
caller. -/
def LogRecord.getMessage (r : LogRecord) : Except String String :=
  let m := pyStr r.msg
  match r.getAttr "args" with
  | some a =>
      if pyTruthy a then
        match a with
        | .obj kvs => pyFormatMap m kvs
        | .arr xs => pyFormatTuple m xs
        | v => pyFormatTuple m [v]
      else .ok m
  | none => .ok m

/-- Whether `sub` occurs as a contiguous run starting at some suffix of the
character list. -/
def hasSubAux (sub : List Char) : List Char → Bool
  | [] => sub.isEmpty
  | c :: rest => sub.isPrefixOf (c :: rest) || hasSubAux sub rest

/-- `True` as a `Bool` when `sub` occurs inside `s` (Python `sub in s`). -/
def hasSub (s sub : String) : Bool :=
  hasSubAux sub.data s.data

/-- `s.endswith(suf)` on the underlying character lists. -/
def strEndsWith (s suf : String) : Bool :=
  List.isSuffixOf suf.data s.data

/-- Modelled from the Python standard library: `Formatter.formatTime`
renders `record.created` with `datefmt` or the default
`"%Y-%m-%d %H:%M:%S"` pattern (the `,msecs` suffix and the
epoch-to-localtime conversion are elided; no claim depends on the rendered
timestamp's content).  A record without a `created` attribute raises
`AttributeError`, which propagates. -/
def formatTime (r : LogRecord) (datefmt : Option String) : Except String String :=
  let pat := match datefmt with
             | some s => if s = "" then "%Y-%m-%d %H:%M:%S" else s
             | none => "%Y-%m-%d %H:%M:%S"
  match r.getAttr "created" with
  | some (.datetime y mo d h mi s) => .ok (strftime6 pat y mo d h mi s)
  | some v => .ok (pyStr v)
  | none => .error "AttributeError: created"

/-- Modelled from the Python standard library: the plain-text traceback
rendering used by `logging.Formatter.formatException` (its exact shape is
irrelevant to every claim; only that it is a string cached in `exc_text`). -/
def stdFormatException (t m : String) (trace : List TBFrame) : String :=
  "Traceback (most recent call last):" ++
  trace.foldl
    (fun acc fr =>
      acc ++ "\n  File " ++ fr.file ++ ", line " ++ toString fr.ln ++ ", in " ++ fr.fn)
    "" ++
  "\n" ++ t ++ ": " ++ m

/-- `Formatter.usesTime`: the template mentions `%(asctime)`. -/
def usesTime (fmt : String) : Bool :=
  hasSub fmt "%(asctime)"

/-- The record mutations `logging.Formatter.format` performs before
rendering: `record.message = record.getMessage()` and, when the template
uses it, `record.asctime = self.formatTime(record, self.datefmt)`; an
error raised by either step propagates. -/
def stdPrepRecord (fmt : String) (datefmt : Option String) (record : LogRecord) :
    Except String LogRecord :=
  match record.getMessage with
  | .error e => .error e
  | .ok m =>
      let record := record.setAttr "message" (.str m)
      if usesTime fmt then
        (formatTime record datefmt).map (fun t => record.setAttr "asctime" (.str t))
      else .ok record

/-- The `exc_text` memoization of `logging.Formatter.format`: when the
record carries an exception and `exc_text` is falsy, cache the rendered
traceback text on the record. -/
def stdExcRecord (record : LogRecord) : LogRecord :=
  match record.excInfo with
  | some (t, m, tr) =>
      if pyTruthy (record.getAttrD "exc_text") then record
      else record.setAttr "exc_text" (.str (stdFormatException t m tr))
  | none => record

/-- Modelled from the Python standard library: `logging.Formatter.format`
(Python 2.7) — set `record.message`, set `record.asctime` when the template
uses it, render the template over the record's attributes, cache the
traceback text in `record.exc_text`, and append it to the line. -/
def stdFormat (fmt : String) (datefmt : Option String) (record : LogRecord) :
    Except String (LogRecord × String) :=
  match stdPrepRecord fmt datefmt record with
  | .error e => .error e
  | .ok record =>
      match pyFormatMap fmt record.attrs with
      | .error e => .error e
      | .ok s =>
          let record := stdExcRecord record
          let et := record.getAttrD "exc_text"
          let s :=
            if pyTruthy et then (if strEndsWith s "\n" then s else s ++ "\n") ++ pyStr et
            else s
          .ok (record, s)

/-- `logging.Formatter.__init__`: a missing or falsy template falls back to
`"%(message)s"`. -/
def initFmt (fmt : Option String) : String :=
  match fmt with
  | some s => if s = "" then "%(message)s" else s
  | none => "%(message)s"

/-- `_default_json_handler` from `JsonFormatter.__init__`: dates in ISO-ish
form (`datetime` with `datefmt or '%Y-%m-%dT%H:%M'`, `date` as `%Y-%m-%d`,
`time` as `%H:%M`), anything else via `unicode(obj)`. -/
def default_json_handler (datefmt : Option String) : JValue → JValue
  | .datetime y mo d h mi s =>
      .str (strftime6
        (match datefmt with
         | some p => if p = "" then "%Y-%m-%dT%H:%M" else p
         | none => "%Y-%m-%dT%H:%M")
        y mo d h mi s)
  | .date y mo d => .str (strftime6 "%Y-%m-%d" y mo d 0 0 0)
  | .time h mi s => .str (strftime6 "%H:%M" 1900 1 1 h mi s)
  | v => .str (pyStr v)

/-- A value `json.dumps` can serialize without calling `default`. -/
def jsonSerializable : JValue → Bool
  | .null => true
  | .bool _ => true
  | .int _ => true
  | .str _ => true
  | .arr _ => true
  | .obj _ => true
  | _ => false

/-- `json.dumps`'s value encoding: primitives pass through, containers are
encoded element-wise, anything else is replaced by `default`'s result and
re-encoded (no `default` means `TypeError`, modelled as `none`; fuel models
the interpreter's recursion limit and is chosen generously at the call
site). -/
def pyEncode (dflt : Option (JValue → JValue)) : Nat → JValue → Option JValue
  | 0, _ => none
  | fuel + 1, v =>
      match v with
      | .null => some .null
      | .bool b => some (.bool b)
      | .int n => some (.int n)
      | .str s => some (.str s)
      | .arr xs => (xs.mapM (pyEncode dflt fuel)).map JValue.arr
      | .obj kvs =>
          (kvs.mapM (fun kv => (pyEncode dflt fuel kv.2).map (fun w => (kv.1, w)))).map
            JValue.obj
      | v =>
          match dflt with
          | some g => pyEncode dflt fuel (g v)
          | none => none

mutual

/-- Node count of a value, used as the encoding fuel bound. -/
def jsize : JValue → Nat
  | .arr xs => 1 + jsizeList xs
  | .obj kvs => 1 + jsizePairs kvs
  | _ => 1

/-- Node count of a list of values. -/
def jsizeList : List JValue → Nat
  | [] => 0
  | x :: rest => jsize x + jsizeList rest

/-- Node count of a list of dict entries. -/
def jsizePairs : List (String × JValue) → Nat
  | [] => 0
  | kv :: rest => jsize kv.2 + jsizePairs rest

end

/-- `json.dumps(log_record, default=..., cls=...)`: a custom encoder class
fully replaces the serialization; otherwise the standard encoding runs with
the `default` fallback.  The result is modelled at the JSON-value level. -/
def dumps (dflt : Option (JValue → JValue))
    (cls : Option (List (String × JValue) → Option JValue))
    (lr : List (String × JValue)) : Option JValue :=
  match cls with
  | some enc => enc lr
  | none => pyEncode dflt (jsize (JValue.obj lr) + 1000) (.obj lr)

/-- A constructed `JsonFormatter`: the template (`self._fmt`), `datefmt`,
and the `json_default` / `json_encoder` options after `__init__` ran. -/
structure JsonFormatter where
  fmt : String
  datefmt : Option String
  json_default : Option (JValue → JValue)
  json_encoder : Option (List (String × JValue) → Option JValue)

/-- `JsonFormatter.__init__(fmt, datefmt, json_default=.., json_encoder=..)`:
when neither a custom `json_default` nor a `json_encoder` is supplied, the
built-in `_default_json_handler` (closing over `datefmt`) is installed. -/
def mkJsonFormatter (fmt : Option String) (datefmt : Option String)
    (json_default : Option (JValue → JValue))
    (json_encoder : Option (List (String × JValue) → Option JValue)) : JsonFormatter :=
  { fmt := initFmt fmt
    datefmt := datefmt
    json_default :=
      match json_encoder, json_default with
      | none, none => some (default_json_handler datefmt)
      | _, _ => json_default
    json_encoder := json_encoder }

/-- `self._required_fields = self.parse()`. -/
def JsonFormatter.required_fields (f : JsonFormatter) : List String :=
  parseFmt f.fmt

/-- `self._skip_fields`: the required template fields plus the reserved
attribute names (modelled by its key set). -/
def JsonFormatter.skip_fields (f : JsonFormatter) : List String :=
  f.required_fields ++ RESERVED_ATTRS

/-- One serialized traceback frame from `JsonFormatter.formatException`. -/
def frameObj (fr : TBFrame) : JValue :=
  .obj [("file", .str fr.file), ("ln", .int fr.ln), ("fn", .str fr.fn)]

/-- `JsonFormatter.formatException(ei)`: a dict with the exception type
name, the exception instance (whose JSON rendering is its message), and the
traceback frames collected by walking `tb.tb_next`, i.e. in linked
outermost-first order. -/
def formatException (typeName excMsg : String) (trace : List TBFrame) : JValue :=
  .obj [("type", .str typeName),
        ("value", .other excMsg),
        ("trace", .arr (trace.map frameObj))]

/-- The `for field in self._required_fields: log_record[field] =
record.__dict__[field]` loop: a missing attribute is a `KeyError` that
propagates. -/
def pullFields (attrs : List (String × JValue)) :
    List String → List (String × JValue) → Except String (List (String × JValue))
  | [], lr => .ok lr
  | field :: rest, lr =>
      match odLookup attrs field with
      | some v => pullFields attrs rest (odInsert lr field v)
      | none => .error ("KeyError: " ++ field)

/-- The message step of `JsonFormatter.format`: `record.message` is `None`
for a dict message and the rendered message otherwise; an error raised by
`record.getMessage()` propagates. -/
def msgPrep (record : LogRecord) : Except String LogRecord :=
  match record.msg with
  | .obj _ => .ok (record.setAttr "message" .null)
  | _ => (record.getMessage).map (fun m => record.setAttr "message" (.str m))

/-- The timestamp step of `JsonFormatter.format`: `record.asctime` is set
when the template requires it; an error raised by `formatTime`
propagates. -/
def asctimePrepJson (f : JsonFormatter) (record : LogRecord) :
    Except String LogRecord :=
  if "asctime" ∈ f.required_fields then
    (formatTime record f.datefmt).map (fun t => record.setAttr "asctime" (.str t))
  else .ok record

/-- The record mutations `JsonFormatter.format` performs before the
required-field loop: the message step, then the conditional timestamp
step. -/
def jsonPrepRecord (f : JsonFormatter) (record : LogRecord) :
    Except String LogRecord :=
  match msgPrep record with
  | .error e => .error e
  | .ok record => asctimePrepJson f record

/-- The `exc_text` memoization of `JsonFormatter.format`: when the record
carries an exception and `exc_text` is falsy, cache the structured
exception dict on the record. -/
def jsonExcRecord (record : LogRecord) : LogRecord :=
  match record.excInfo with
  | some (t, m, tr) =>
      if pyTruthy (record.getAttrD "exc_text") then record
      else record.setAttr "exc_text" (formatException t m tr)
  | none => record

/-- The dict payload used as `extras` by `JsonFormatter.format`. -/
def payloadEntries (record : LogRecord) : List (String × JValue) :=
  match record.msg with
  | .obj kvs => kvs
  | _ => []

/-- The `exc` entry step of `JsonFormatter.format`: when `record.exc_info`
is truthy, `log_record['exc'] = record.exc_text` (after the memoization in
`jsonExcRecord`). -/
def excStep (record : LogRecord) (lr0 : List (String × JValue)) :
    List (String × JValue) :=
  match record.excInfo with
  | some _ => odInsert lr0 "exc" ((jsonExcRecord record).getAttrD "exc_text")
  | none => lr0

/-- `JsonFormatter.format(record)` up to (but excluding) the `json.dumps`
call: returns the mutated record together with the `OrderedDict` that is
serialized.  Mirrors the source line by line: inline dict payload and
`record.message` / conditional `record.asctime` (`jsonPrepRecord`), the
required-field loop (`pullFields`), the `exc` entry with its `exc_text`
memoization (`jsonExcRecord`), `log_record.update(extras)` (`odUpdate`),
and `merge_record_extra`. -/
def JsonFormatter.formatDict (f : JsonFormatter) (record : LogRecord) :
    Except String (LogRecord × List (String × JValue)) :=
  let extras := payloadEntries record
  match jsonPrepRecord f record with
  | .error e => .error e
  | .ok record =>
      match pullFields record.attrs f.required_fields [] with
      | .error e => .error e
      | .ok lr0 =>
          .ok (jsonExcRecord record,
               merge_record_extra (jsonExcRecord record)
                 (odUpdate (excStep record lr0) extras) f.skip_fields)

/-- `JsonFormatter.format(record)`: the built mapping serialized by
`json.dumps` (modelled at the JSON-value level); a serialization failure —
the spec's SerializationError, Python's `TypeError` from `json.dumps` —
propagates as an error. -/
def JsonFormatter.format (f : JsonFormatter) (record : LogRecord) :
    Except String (LogRecord × JValue) :=
  match f.formatDict record with
  | .error e => .error e
  | .ok (record, lr) =>
      match dumps f.json_default f.json_encoder lr with
      | some out => .ok (record, out)
      | none => .error "TypeError: not JSON serializable"

/-- A constructed `ExtraTextFormatter`: template and `datefmt`. -/
structure ExtraTextFormatter where
  fmt : String
  datefmt : Option String

/-- `ExtraTextFormatter.__init__(fmt, datefmt)`. -/
def mkExtraTextFormatter (fmt : Option String) (datefmt : Option String) :
    ExtraTextFormatter :=
  { fmt := initFmt fmt, datefmt := datefmt }

/-- `self._required_fields = self.parse()`. -/
def ExtraTextFormatter.required_fields (f : ExtraTextFormatter) : List String :=
  parseFmt f.fmt

/-- `self._skip_fields`: required template fields plus reserved names. -/
def ExtraTextFormatter.skip_fields (f : ExtraTextFormatter) : List String :=
  f.required_fields ++ RESERVED_ATTRS

/-- The dict-message prologue of `ExtraTextFormatter.format`: every payload
entry is attached to the record with `setattr`, then `record.msg` is
cleared to the empty string. -/
def payloadExpandText (record : LogRecord) : LogRecord :=
  match record.msg with
  | .obj kvs =>
      (kvs.foldl (fun r kv => r.setAttr kv.1 kv.2) record).setAttr "msg" (.str "")
  | _ => record

/-- `ExtraTextFormatter.format(record)`: expand a dict message into record
attributes, render the standard line, then append a space and the
`", "`-joined `key: value` pairs of the merged extras (values via `%s`,
i.e. `str()`). -/
def ExtraTextFormatter.format (f : ExtraTextFormatter) (record : LogRecord) :
    Except String (LogRecord × String) :=
  let record := payloadExpandText record
  match stdFormat f.fmt f.datefmt record with
  | .error e => .error e
  | .ok (record, line) =>
      let extras := merge_record_extra record [] f.skip_fields
      .ok (record,
           line ++ " " ++
           String.intercalate ", " (extras.map (fun kv => kv.1 ++ ": " ++ pyStr kv.2)))

/-- Add a key at the end unless it is already present: the effect one
ordered-dict insertion has on the key sequence. -/
def addKey (ks : List String) (k : String) : List String :=
  if k ∈ ks then ks else ks ++ [k]

/-- First-occurrence deduplication of a key sequence: the key order an
`OrderedDict` ends up with after inserting the pairs in sequence. -/
def dedupKeys (l : List String) : List String :=
  l.foldl addKey []

/-- The record attributes `merge_record_extra` copies: not reserved, not
private. -/
def filterExtras (record : LogRecord) (reserved : List String) :
    List (String × JValue) :=
  record.attrs.filter (fun kv => kv.1 ∉ reserved ∧ ¬ (startsUnderscore kv.1))

/-- The keys `merge_record_extra` copies, in attribute iteration order. -/
def extraKeys (record : LogRecord) (reserved : List String) : List String :=
  (filterExtras record reserved).map Prod.fst

/-- The keys of a dict message payload, in their original order. -/
def payloadKeys (record : LogRecord) : List String :=
  (payloadEntries record).map Prod.fst

/-- Whether the record carries a (truthy) captured exception. -/
def excPresent (record : LogRecord) : Bool :=
  record.excInfo.isSome

/-- The entries of a dict value (`[]` for non-dicts). -/
def jObjEntries : JValue → List (String × JValue)
  | .obj kvs => kvs
  | _ => []

/-- A value `json.dumps` hands to the `default` fallback. -/
def jsonUnencodable (v : JValue) : Bool :=
  ! jsonSerializable v

/-- Sample record: a plain string message and the framework attributes every
`logging`-made record carries (trimmed to the ones the claims touch). -/
def recPlain : LogRecord :=
  ⟨[("msg", .str "test"), ("args", .null), ("exc_info", .null), ("exc_text", .null)]⟩

/-- Sample record with a dict payload colliding with an emit-time extra
attribute `k`: the payload binds `k` to `1`, the attribute binds it to `2`. -/
def recCollide : LogRecord :=
  ⟨[("msg", .obj [("k", .int 1)]), ("args", .null), ("exc_info", .null),
    ("exc_text", .null), ("k", .int 2)]⟩

/-- Sample record with a dict payload that itself binds `"message"`, and a
colliding extra attribute, for the inline-payload claim. -/
def recPayloadMsg : LogRecord :=
  ⟨[("msg", .obj [("k", .int 1), ("message", .str "hi")]), ("args", .null),
    ("exc_info", .null), ("exc_text", .null), ("k", .int 2)]⟩

/-- Sample record with a datetime payload value (the `1999-12-31 23:59`
scenario). -/
def recDate : LogRecord :=
  ⟨[("msg", .obj [("adate", .datetime 1999 12 31 23 59 0)]), ("args", .null),
    ("exc_info", .null), ("exc_text", .null)]⟩

/-- Sample record with a datetime payload value next to a primitive one
(the custom-encoder scenario). -/
def recDateNormal : LogRecord :=
  ⟨[("msg", .obj [("adate", .datetime 1999 12 31 23 59 0), ("normal", .str "value")]),
    ("args", .null), ("exc_info", .null), ("exc_text", .null)]⟩

/-- Sample record carrying a single-frame exception. -/
def recExc : LogRecord :=
  ⟨[("msg", .str "snafu"), ("args", .null),
    ("exc_info", .excinfo "Exception" "fubar" [⟨"/src/caller.ext", 41, "f"⟩]),
    ("exc_text", .null), ("levelname", .str "ERROR")]⟩

/-- Sample record with the dict payload of the text-formatter test
`testLogADict`. -/
def recTextDict : LogRecord :=
  ⟨[("msg", .obj [("text", .str "testing logging"), ("num", .int 1),
                  ("5", .str "9"), ("nested", .obj [("more", .str "data")])]),
    ("args", .null), ("exc_info", .null), ("exc_text", .null)]⟩

/-- The constant custom value encoder of the custom-encoder scenario. -/
def veryCustom : JValue → JValue :=
  fun _ => .str "very custom"

/-- Whether the record's message is a dict payload. -/
def msgIsDict (r : LogRecord) : Bool :=
  match r.msg with
  | .obj _ => true
  | _ => false

/-- The record state after `ExtraTextFormatter.format` ran on
`recTextDict`: payload entries attached as attributes, `msg` cleared,
`message` memoized empty. -/
def c8Record : LogRecord :=
  ⟨[("msg", .str ""), ("args", .null), ("exc_info", .null), ("exc_text", .null),
    ("text", .str "testing logging"), ("num", .int 1), ("5", .str "9"),
    ("nested", .obj [("more", .str "data")]), ("message", .str "")]⟩

/-- The line `ExtraTextFormatter.format` produces for `recTextDict`: empty
standard line, a space, and the `str()`-rendered extras (unquoted strings,
single-quoted dict repr). -/
def c8Line : String :=
  " text: testing logging, num: 1, 5: 9, nested: \x7b" ++ sq ++ "more" ++ sq ++
  ": " ++ sq ++ "data" ++ sq ++ "\x7d"

/-! ### Ordered-dict lemmas -/

theorem odLookup_odInsert_self (l : List (String × JValue)) (k : String) (v : JValue) :
    odLookup (odInsert l k v) k = some v := by
  induction l with
  | nil => simp [odInsert, odLookup]
  | cons kv rest ih =>
      by_cases h : kv.1 = k
      · simp [odInsert, odLookup, h]
      · simp [odInsert, odLookup, h, ih]

theorem odLookup_odInsert_ne (l : List (String × JValue)) (k k' : String) (v : JValue)
    (h : k' ≠ k) : odLookup (odInsert l k v) k' = odLookup l k' := by
  induction l with
  | nil => simp [odInsert, odLookup, Ne.symm h]
  | cons kv rest ih =>
      by_cases hk : kv.1 = k
      · simp [odInsert, odLookup, hk, Ne.symm h]
      · by_cases hk' : kv.1 = k'
        · simp [odInsert, odLookup, hk, hk', h]
        · simp [odInsert, odLookup, hk, hk', ih]

theorem odKeys_odInsert (l : List (String × JValue)) (k : String) (v : JValue) :
    odKeys (odInsert l k v) = addKey (odKeys l) k := by
  induction l with
  | nil => simp [odInsert, odKeys, addKey]
  | cons kv rest ih =>
      by_cases h : kv.1 = k
      · simp [odInsert, odKeys, addKey, h]
      · have hne : k ≠ kv.1 := fun hh => h hh.symm
        simp only [odInsert, if_neg h, odKeys, List.map_cons] at ih ⊢
        rw [ih]
        unfold addKey
        by_cases hm : k ∈ List.map Prod.fst rest
        · simp [hm, hne, List.mem_cons]
        · simp [hm, hne, List.mem_cons]

theorem mem_odKeys_odInsert (l : List (String × JValue)) (k k' : String) (v : JValue) :
    k' ∈ odKeys (odInsert l k v) ↔ k' ∈ odKeys l ∨ k' = k := by
  rw [odKeys_odInsert]
  unfold addKey
  by_cases h : k ∈ odKeys l
  · simp only [if_pos h]
    constructor
    · exact Or.inl
    · rintro (hm | rfl)
      · exact hm
      · exact h
  · simp [if_neg h]

theorem odLookup_eq_none_iff (l : List (String × JValue)) (k : String) :
    odLookup l k = none ↔ k ∉ odKeys l := by
  induction l with
  | nil => simp [odLookup, odKeys]
  | cons kv rest ih =>
      by_cases h : kv.1 = k
      · simp [odLookup, odKeys, h]
      · have hne : k ≠ kv.1 := fun hh => h hh.symm
        simp [odLookup, odKeys, h, hne, ih]

theorem odLookup_isSome_iff (l : List (String × JValue)) (k : String) :
    (odLookup l k).isSome = true ↔ k ∈ odKeys l := by
  induction l with
  | nil => simp [odLookup, odKeys]
  | cons kv rest ih =>
      by_cases h : kv.1 = k
      · simp [odLookup, odKeys, h]
      · have hne : k ≠ kv.1 := fun hh => h hh.symm
        simp [odLookup, odKeys, h, hne, ih]

theorem nodup_addKey (ks : List String) (k : String) (h : ks.Nodup) :
    (addKey ks k).Nodup := by
  unfold addKey
  by_cases hm : k ∈ ks
  · simp only [if_pos hm]; exact h
  · simp only [if_neg hm]
    refine List.Nodup.append h (List.nodup_singleton k) ?_
    intro a ha hb
    simp only [List.mem_singleton] at hb
    subst hb
    exact hm ha

theorem nodup_foldl_addKey (l : List String) :
    ∀ ks : List String, ks.Nodup → (l.foldl addKey ks).Nodup := by
  induction l with
  | nil => intro ks h; simpa using h
  | cons a rest ih => intro ks h; exact ih _ (nodup_addKey ks a h)

theorem nodup_dedupKeys (l : List String) : (dedupKeys l).Nodup :=
  nodup_foldl_addKey l [] List.nodup_nil

theorem mem_odInsert (l : List (String × JValue)) (k : String) (v : JValue)
    (kv : String × JValue) (h : kv ∈ odInsert l k v) : kv ∈ l ∨ kv.1 = k := by
  induction l with
  | nil =>
      simp only [odInsert, List.mem_singleton] at h
      right; simp [h]
  | cons hd rest ih =>
      by_cases hk : hd.1 = k
      · simp only [odInsert, if_pos hk] at h
        rcases List.mem_cons.mp h with h | h
        · right; simp [h]
        · left; exact List.mem_cons_of_mem _ h
      · simp only [odInsert, if_neg hk] at h
        rcases List.mem_cons.mp h with h | h
        · left; rw [h]; exact List.mem_cons_self _ _
        · rcases ih h with h2 | h2
          · left; exact List.mem_cons_of_mem _ h2
          · right; exact h2

theorem nodup_odInsert (l : List (String × JValue)) (k : String) (v : JValue)
    (h : (odKeys l).Nodup) : (odKeys (odInsert l k v)).Nodup := by
  rw [odKeys_odInsert]; exact nodup_addKey _ _ h

theorem odLookup_some_mem (l : List (String × JValue)) (k : String) (v : JValue)
    (h : odLookup l k = some v) : (k, v) ∈ l := by
  induction l with
  | nil => simp [odLookup] at h
  | cons kv rest ih =>
      by_cases hk : kv.1 = k
      · simp only [odLookup, if_pos hk, Option.some.injEq] at h
        have hkv : (k, v) = kv := by
          obtain ⟨a, b⟩ := kv
          simp only at hk h
          rw [hk, h]
        rw [hkv]
        exact List.mem_cons_self _ _
      · simp only [odLookup, if_neg hk] at h
        exact List.mem_cons_of_mem _ (ih h)

theorem odKeys_odUpdate (kvs : List (String × JValue)) :
    ∀ t, odKeys (odUpdate t kvs) = (kvs.map Prod.fst).foldl addKey (odKeys t) := by
  induction kvs with
  | nil => intro t; simp [odUpdate]
  | cons kv rest ih =>
      intro t
      simp only [odUpdate, List.foldl_cons, List.map_cons]
      rw [show List.foldl (fun t kv => odInsert t kv.1 kv.2) (odInsert t kv.1 kv.2) rest =
            odUpdate (odInsert t kv.1 kv.2) rest from rfl,
          ih, odKeys_odInsert]

theorem odLookup_odUpdate_not_mem (kvs : List (String × JValue)) (k : String)
    (h : k ∉ kvs.map Prod.fst) :
    ∀ t, odLookup (odUpdate t kvs) k = odLookup t k := by
  induction kvs with
  | nil => intro t; simp [odUpdate]
  | cons kv rest ih =>
      intro t
      simp only [List.map_cons, List.mem_cons] at h
      push_neg at h
      simp only [odUpdate, List.foldl_cons]
      rw [show List.foldl (fun t kv => odInsert t kv.1 kv.2) (odInsert t kv.1 kv.2) rest =
            odUpdate (odInsert t kv.1 kv.2) rest from rfl,
          ih h.2, odLookup_odInsert_ne t kv.1 k kv.2 h.1]

theorem odLookup_odUpdate_mem (kvs : List (String × JValue)) (k : String) (v : JValue)
    (hnd : (kvs.map Prod.fst).Nodup) (hmem : (k, v) ∈ kvs) :
    ∀ t, odLookup (odUpdate t kvs) k = some v := by
  induction kvs with
  | nil => simp at hmem
  | cons kv rest ih =>
      intro t
      simp only [List.map_cons, List.nodup_cons] at hnd
      simp only [odUpdate, List.foldl_cons]
      rw [show List.foldl (fun t kv => odInsert t kv.1 kv.2) (odInsert t kv.1 kv.2) rest =
            odUpdate (odInsert t kv.1 kv.2) rest from rfl]
      rcases List.mem_cons.mp hmem with h | h
      · have hk : kv.1 = k := by rw [← h]
        have hnin : k ∉ rest.map Prod.fst := by rw [← hk]; exact hnd.1
        rw [odLookup_odUpdate_not_mem rest k hnin, ← h,
            odLookup_odInsert_self]
      · exact ih hnd.2 h _

theorem merge_record_extra_eq (r : LogRecord) (res : List String) :
    ∀ t, merge_record_extra r t res = odUpdate t (filterExtras r res) := by
  obtain ⟨attrs⟩ := r
  induction attrs with
  | nil => intro t; simp [merge_record_extra, filterExtras, odUpdate]
  | cons kv rest ih =>
      intro t
      simp only [merge_record_extra, filterExtras, LogRecord.attrs] at ih ⊢
      by_cases h : kv.1 ∉ res ∧ ¬ (startsUnderscore kv.1)
      · simp only [List.foldl_cons, if_pos h, List.filter_cons,
          decide_eq_true (show kv.1 ∉ res ∧ ¬ (startsUnderscore kv.1) from h)]
        rw [ih (odInsert t kv.1 kv.2)]
        rfl
      · simp only [List.foldl_cons, if_neg h, List.filter_cons]
        rw [ih t]
        have hd : (decide (kv.1 ∉ res ∧ ¬ (startsUnderscore kv.1))) = false := by
          simpa using h
        rw [hd]
        simp

theorem odLookup_merge_skip (r : LogRecord) (res : List String) (k : String)
    (h : k ∈ res) (t : List (String × JValue)) :
    odLookup (merge_record_extra r t res) k = odLookup t k := by
  rw [merge_record_extra_eq]
  apply odLookup_odUpdate_not_mem
  intro hmem
  rcases List.mem_map.mp hmem with ⟨kv, hkv, hfst⟩
  have hpred := (List.mem_filter.mp hkv).2
  simp only [decide_eq_true_eq] at hpred
  rw [hfst] at hpred
  exact hpred.1 h

theorem odLookup_merge_extra (r : LogRecord) (res : List String) (k : String) (v : JValue)
    (hnd : (odKeys r.attrs).Nodup) (hlook : odLookup r.attrs k = some v)
    (hres : k ∉ res) (hpriv : startsUnderscore k = false) (t : List (String × JValue)) :
    odLookup (merge_record_extra r t res) k = some v := by
  rw [merge_record_extra_eq]
  apply odLookup_odUpdate_mem
  · exact ((List.filter_sublist _).map Prod.fst).nodup hnd
  · exact List.mem_filter.mpr ⟨odLookup_some_mem _ _ _ hlook, by simp [hres, hpriv]⟩

/-! ### Required-field loop lemmas -/

theorem pullFields_ok (attrs : List (String × JValue)) (fs : List String)
    (h : ∀ n ∈ fs, n ∈ odKeys attrs) :
    ∀ lr, ∃ lr2, pullFields attrs fs lr = .ok lr2 := by
  induction fs with
  | nil => intro lr; exact ⟨lr, rfl⟩
  | cons f rest ih =>
      intro lr
      have hf : f ∈ odKeys attrs := h f (List.mem_cons_self _ _)
      rcases Option.isSome_iff_exists.mp ((odLookup_isSome_iff attrs f).mpr hf) with ⟨v, hv⟩
      simp only [pullFields, hv]
      exact ih (fun n hn => h n (List.mem_cons_of_mem _ hn)) _

theorem pullFields_error (attrs : List (String × JValue)) (fs : List String) (n : String)
    (hn : n ∈ fs) (hmiss : n ∉ odKeys attrs) :
    ∀ lr, ∃ e, pullFields attrs fs lr = .error e := by
  induction fs with
  | nil => simp at hn
  | cons f rest ih =>
      intro lr
      match hv : odLookup attrs f with
      | none => exact ⟨"KeyError: " ++ f, by simp [pullFields, hv]⟩
      | some v =>
          have hf : f ∈ odKeys attrs :=
            (odLookup_isSome_iff attrs f).mp (by simp [hv])
          have hnr : n ∈ rest := by
            rcases List.mem_cons.mp hn with h | h
            · exact absurd (h ▸ hf) hmiss
            · exact h
          simp only [pullFields, hv]
          exact ih hnr _

theorem pullFields_keys (attrs : List (String × JValue)) (fs : List String) :
    ∀ lr lr2, pullFields attrs fs lr = .ok lr2 →
      odKeys lr2 = fs.foldl addKey (odKeys lr) := by
  induction fs with
  | nil =>
      intro lr lr2 h
      simp only [pullFields, Except.ok.injEq] at h
      simp [← h]
  | cons f rest ih =>
      intro lr lr2 h
      simp only [pullFields] at h
      match hv : odLookup attrs f with
      | none => rw [hv] at h; simp at h
      | some v =>
          rw [hv] at h
          rw [List.foldl_cons, ← odKeys_odInsert _ f v]
          exact ih _ _ h

theorem pullFields_lookup_not_mem (attrs : List (String × JValue)) (fs : List String)
    (k : String) (hk : k ∉ fs) :
    ∀ lr lr2, pullFields attrs fs lr = .ok lr2 → odLookup lr2 k = odLookup lr k := by
  induction fs with
  | nil =>
      intro lr lr2 h
      simp only [pullFields, Except.ok.injEq] at h
      rw [← h]
  | cons f rest ih =>
      intro lr lr2 h
      simp only [pullFields] at h
      simp only [List.mem_cons] at hk
      push_neg at hk
      match hv : odLookup attrs f with
      | none => rw [hv] at h; simp at h
      | some v =>
          rw [hv] at h
          rw [ih hk.2 _ _ h, odLookup_odInsert_ne _ _ _ _ hk.1]

theorem pullFields_lookup_mem (attrs : List (String × JValue)) (fs : List String)
    (k : String) (hk : k ∈ fs) :
    ∀ lr lr2, pullFields attrs fs lr = .ok lr2 → odLookup lr2 k = odLookup attrs k := by
  induction fs with
  | nil => simp at hk
  | cons f rest ih =>
      intro lr lr2 h
      simp only [pullFields] at h
      match hv : odLookup attrs f with
      | none => rw [hv] at h; simp at h
      | some v =>
          rw [hv] at h
          by_cases hkr : k ∈ rest
          · exact ih hkr _ _ h
          · have hkf : k = f := by
              rcases List.mem_cons.mp hk with h2 | h2
              · exact h2
              · exact absurd h2 hkr
            subst hkf
            rw [pullFields_lookup_not_mem attrs rest k hkr _ _ h,
                odLookup_odInsert_self, hv]

/-! ### Record-mutation lemmas -/

theorem getAttr_setAttr_ne (r : LogRecord) (k k2 : String) (v : JValue)
    (h : k2 ≠ k) : (r.setAttr k v).getAttr k2 = r.getAttr k2 :=
  odLookup_odInsert_ne r.attrs k k2 v h

theorem getAttr_setAttr_self (r : LogRecord) (k : String) (v : JValue) :
    (r.setAttr k v).getAttr k = some v :=
  odLookup_odInsert_self r.attrs k v

theorem msgPrep_ok_shape (r rp : LogRecord) (h : msgPrep r = .ok rp) :
    ∃ v, rp = r.setAttr "message" v := by
  unfold msgPrep at h
  split at h
  · simp only [Except.ok.injEq] at h
    exact ⟨.null, h.symm⟩
  · match hg : r.getMessage with
    | .error e => rw [hg] at h; simp [Except.map] at h
    | .ok m =>
        rw [hg] at h
        simp only [Except.map, Except.ok.injEq] at h
        exact ⟨.str m, h.symm⟩

theorem asctimePrepJson_ok_shape (f : JsonFormatter) (r rp : LogRecord)
    (h : asctimePrepJson f r = .ok rp) :
    rp = r ∨ ∃ t, rp = r.setAttr "asctime" t := by
  unfold asctimePrepJson at h
  split at h
  · match hf : formatTime r f.datefmt with
    | .error e => rw [hf] at h; simp [Except.map] at h
    | .ok t =>
        rw [hf] at h
        simp only [Except.map, Except.ok.injEq] at h
        exact Or.inr ⟨.str t, h.symm⟩
  · simp only [Except.ok.injEq] at h
    exact Or.inl h.symm

theorem jsonPrep_ok_elim2 (f : JsonFormatter) (r rp : LogRecord)
    (h : jsonPrepRecord f r = .ok rp) :
    ∃ r1, msgPrep r = .ok r1 ∧ asctimePrepJson f r1 = .ok rp := by
  unfold jsonPrepRecord at h
  match hm : msgPrep r with
  | .error e => rw [hm] at h; simp at h
  | .ok r1 => rw [hm] at h; exact ⟨r1, rfl, h⟩

theorem jsonPrep_ok_shape (f : JsonFormatter) (r rp : LogRecord)
    (h : jsonPrepRecord f r = .ok rp) :
    ∃ v, rp = r.setAttr "message" v ∨
      ∃ t, rp = (r.setAttr "message" v).setAttr "asctime" t := by
  rcases jsonPrep_ok_elim2 f r rp h with ⟨r1, hm, ha⟩
  rcases msgPrep_ok_shape r r1 hm with ⟨v, hv⟩
  rcases asctimePrepJson_ok_shape f r1 rp ha with h2 | ⟨t, ht⟩
  · exact ⟨v, Or.inl (by rw [h2, hv])⟩
  · exact ⟨v, Or.inr ⟨t, by rw [ht, hv]⟩⟩

theorem getAttr_jsonPrep (f : JsonFormatter) (r rp : LogRecord) (k : String)
    (h : jsonPrepRecord f r = .ok rp)
    (h1 : k ≠ "message") (h2 : k ≠ "asctime") :
    rp.getAttr k = r.getAttr k := by
  rcases jsonPrep_ok_shape f r rp h with ⟨v, hv | ⟨t, ht⟩⟩
  · rw [hv, getAttr_setAttr_ne _ _ _ _ h1]
  · rw [ht, getAttr_setAttr_ne _ _ _ _ h2, getAttr_setAttr_ne _ _ _ _ h1]

theorem getAttr_jsonExc (r : LogRecord) (k : String) (h : k ≠ "exc_text") :
    (jsonExcRecord r).getAttr k = r.getAttr k := by
  unfold jsonExcRecord
  split
  · split
    · rfl
    · exact getAttr_setAttr_ne _ _ _ _ h
  · rfl

theorem excInfo_setAttr_ne (r : LogRecord) (k : String) (v : JValue)
    (h : k ≠ "exc_info") : (r.setAttr k v).excInfo = r.excInfo := by
  unfold LogRecord.excInfo
  rw [getAttr_setAttr_ne r k "exc_info" v (Ne.symm h)]

theorem excInfo_jsonPrep (f : JsonFormatter) (r rp : LogRecord)
    (h : jsonPrepRecord f r = .ok rp) : rp.excInfo = r.excInfo := by
  unfold LogRecord.excInfo
  rw [getAttr_jsonPrep f r rp "exc_info" h (by decide) (by decide)]

theorem nodup_setAttr (r : LogRecord) (k : String) (v : JValue)
    (h : (odKeys r.attrs).Nodup) : (odKeys (r.setAttr k v).attrs).Nodup :=
  nodup_odInsert r.attrs k v h

theorem nodup_jsonPrep (f : JsonFormatter) (r rp : LogRecord)
    (h : jsonPrepRecord f r = .ok rp) (hnd : (odKeys r.attrs).Nodup) :
    (odKeys rp.attrs).Nodup := by
  rcases jsonPrep_ok_shape f r rp h with ⟨v, hv | ⟨t, ht⟩⟩
  · rw [hv]; exact nodup_setAttr _ _ _ hnd
  · rw [ht]; exact nodup_setAttr _ _ _ (nodup_setAttr _ _ _ hnd)

theorem nodup_jsonExc (r : LogRecord) (h : (odKeys r.attrs).Nodup) :
    (odKeys (jsonExcRecord r).attrs).Nodup := by
  unfold jsonExcRecord
  split
  · split
    · exact h
    · exact nodup_setAttr _ _ _ h
  · exact h

theorem filterExtras_setAttr_skip (r : LogRecord) (k : String) (v : JValue)
    (res : List String) (h : k ∈ res) :
    filterExtras (r.setAttr k v) res = filterExtras r res := by
  obtain ⟨attrs⟩ := r
  simp only [filterExtras, LogRecord.setAttr, LogRecord.attrs]
  induction attrs with
  | nil => simp [odInsert, h]
  | cons kv rest ih =>
      by_cases hk : kv.1 = k
      · simp only [odInsert, if_pos hk, List.filter_cons]
        simp [h, hk]
      · simp only [odInsert, if_neg hk, List.filter_cons]
        rw [ih]

theorem filterExtras_jsonPrep (f : JsonFormatter) (r rp : LogRecord)
    (res : List String) (h : jsonPrepRecord f r = .ok rp)
    (hm : "message" ∈ res) (ha : "asctime" ∈ res) :
    filterExtras rp res = filterExtras r res := by
  rcases jsonPrep_ok_shape f r rp h with ⟨v, hv | ⟨t, ht⟩⟩
  · rw [hv, filterExtras_setAttr_skip _ _ _ _ hm]
  · rw [ht, filterExtras_setAttr_skip _ _ _ _ ha, filterExtras_setAttr_skip _ _ _ _ hm]

theorem filterExtras_jsonExc (r : LogRecord) (res : List String)
    (he : "exc_text" ∈ res) :
    filterExtras (jsonExcRecord r) res = filterExtras r res := by
  unfold jsonExcRecord
  split
  · split
    · rfl
    · rw [filterExtras_setAttr_skip _ _ _ _ he]
  · rfl

theorem mem_skip_fields_reserved (f : JsonFormatter) (k : String)
    (h : k ∈ RESERVED_ATTRS) : k ∈ f.skip_fields :=
  List.mem_append.mpr (Or.inr h)

theorem formatDict_eq_of_pull_ok (f : JsonFormatter) (r rp : LogRecord)
    (lr0 : List (String × JValue))
    (hprep : jsonPrepRecord f r = .ok rp)
    (h : pullFields rp.attrs f.required_fields [] = .ok lr0) :
    f.formatDict r =
      .ok (jsonExcRecord rp,
           merge_record_extra (jsonExcRecord rp)
             (odUpdate (excStep rp lr0) (payloadEntries r)) f.skip_fields) := by
  simp only [JsonFormatter.formatDict, hprep, h]

theorem formatDict_ok_elim (f : JsonFormatter) (r : LogRecord)
    (p : LogRecord × List (String × JValue)) (h : f.formatDict r = .ok p) :
    ∃ rp lr0, jsonPrepRecord f r = .ok rp ∧
      pullFields rp.attrs f.required_fields [] = .ok lr0 ∧
      p = (jsonExcRecord rp,
           merge_record_extra (jsonExcRecord rp)
             (odUpdate (excStep rp lr0) (payloadEntries r)) f.skip_fields) := by
  simp only [JsonFormatter.formatDict] at h
  match hprep : jsonPrepRecord f r with
  | .error e => rw [hprep] at h; simp at h
  | .ok rp =>
      simp only [hprep] at h
      match hp : pullFields rp.attrs f.required_fields [] with
      | .error e => rw [hp] at h; simp at h
      | .ok lr0 =>
          rw [hp] at h
          simp only [Except.ok.injEq] at h
          exact ⟨rp, lr0, rfl, hp, h.symm⟩

theorem formatDict_error_of_prep (f : JsonFormatter) (r : LogRecord) (e : String)
    (h : jsonPrepRecord f r = .error e) : f.formatDict r = .error e := by
  simp only [JsonFormatter.formatDict]
  rw [h]

theorem formatDict_error_of_pull (f : JsonFormatter) (r rp : LogRecord) (e : String)
    (hprep : jsonPrepRecord f r = .ok rp)
    (h : pullFields rp.attrs f.required_fields [] = .error e) :
    f.formatDict r = .error e := by
  simp only [JsonFormatter.formatDict, hprep, h]

theorem format_of_dumps_some (f : JsonFormatter) (r r2 : LogRecord)
    (lr : List (String × JValue)) (out : JValue)
    (h : f.formatDict r = .ok (r2, lr))
    (hd : dumps f.json_default f.json_encoder lr = some out) :
    f.format r = .ok (r2, out) := by
  simp only [JsonFormatter.format, h, hd]

theorem format_of_formatDict_error (f : JsonFormatter) (r : LogRecord) (e : String)
    (h : f.formatDict r = .error e) : f.format r = .error e := by
  simp only [JsonFormatter.format]
  rw [h]

theorem format_error_elim_of_formatDict_ok (f : JsonFormatter) (r r2 : LogRecord)
    (lr : List (String × JValue)) (e : String)
    (h : f.formatDict r = .ok (r2, lr)) (he : f.format r = .error e) :
    e = "TypeError: not JSON serializable" := by
  simp only [JsonFormatter.format, h] at he
  match hd : dumps f.json_default f.json_encoder lr with
  | some out => rw [hd] at he; simp at he
  | none =>
      rw [hd] at he
      simp only [Except.error.injEq] at he
      exact he.symm

theorem mem_keys_setAttr (r : LogRecord) (k k2 : String) (v : JValue)
    (h : k2 ∈ odKeys r.attrs) : k2 ∈ odKeys (r.setAttr k v).attrs :=
  (mem_odKeys_odInsert r.attrs k k2 v).mpr (Or.inl h)

theorem mem_keys_jsonPrep (f : JsonFormatter) (r rp : LogRecord) (k : String)
    (h : jsonPrepRecord f r = .ok rp) (hk : k ∈ odKeys r.attrs) :
    k ∈ odKeys rp.attrs := by
  rcases jsonPrep_ok_shape f r rp h with ⟨v, hv | ⟨t, ht⟩⟩
  · rw [hv]; exact mem_keys_setAttr _ _ _ _ hk
  · rw [ht]; exact mem_keys_setAttr _ _ _ _ (mem_keys_setAttr _ _ _ _ hk)

theorem mem_keys_jsonPrep_elim (f : JsonFormatter) (r rp : LogRecord) (k : String)
    (h : jsonPrepRecord f r = .ok rp) (hk : k ∈ odKeys rp.attrs) :
    k ∈ odKeys r.attrs ∨ k = "message" ∨ k = "asctime" := by
  rcases jsonPrep_ok_shape f r rp h with ⟨v, hv | ⟨t, ht⟩⟩
  · rw [hv] at hk
    rcases (mem_odKeys_odInsert _ _ _ _).mp hk with h2 | h2
    · exact Or.inl h2
    · exact Or.inr (Or.inl h2)
  · rw [ht] at hk
    rcases (mem_odKeys_odInsert _ _ _ _).mp hk with h2 | h2
    · rcases (mem_odKeys_odInsert _ _ _ _).mp h2 with h3 | h3
      · exact Or.inl h3
      · exact Or.inr (Or.inl h3)
    · exact Or.inr (Or.inr h2)

/-! ### C1 -/

/-- C1 (amended): a template name other than the always-populated `message`
and `asctime` that is absent from the record's attributes makes
`JsonFormatter.format` fail with an error that propagates to the caller.
When every template name exists on the record, the required-field
resolution never fails: whenever the message/timestamp preparation
succeeded, the output mapping is built, and the only error `format` can
still raise is the serialization error — never a missing-field
`KeyError`.  (Preparation itself can raise independently, e.g. from
`%`-formatting of `args` or a missing `created`; those are not
missing-field errors.) -/
theorem spec_c1 (f : JsonFormatter) (r : LogRecord) :
    ((∃ n ∈ f.required_fields, n ∉ odKeys r.attrs ∧ n ≠ "message" ∧ n ≠ "asctime") →
      ∃ e, f.format r = .error e) ∧
    (∀ rp, (∀ n ∈ f.required_fields, n ∈ odKeys r.attrs) →
      jsonPrepRecord f r = .ok rp → ∃ p, f.formatDict r = .ok p) ∧
    (∀ rp e, (∀ n ∈ f.required_fields, n ∈ odKeys r.attrs) →
      jsonPrepRecord f r = .ok rp → f.format r = .error e →
      e = "TypeError: not JSON serializable") := by
  refine ⟨?_, ?_, ?_⟩
  · rintro ⟨n, hmem, hmiss, hnm, hna⟩
    match hprep : jsonPrepRecord f r with
    | .error e =>
        exact ⟨e, format_of_formatDict_error f r e (formatDict_error_of_prep f r e hprep)⟩
    | .ok rp =>
        have hmiss2 : n ∉ odKeys rp.attrs := by
          intro hin
          rcases mem_keys_jsonPrep_elim f r rp n hprep hin with h2 | h2 | h2
          · exact hmiss h2
          · exact hnm h2
          · exact hna h2
        rcases pullFields_error rp.attrs f.required_fields n hmem hmiss2 [] with ⟨e, hpull⟩
        exact ⟨e, format_of_formatDict_error f r e
          (formatDict_error_of_pull f r rp e hprep hpull)⟩
  · intro rp h hprep
    rcases pullFields_ok rp.attrs f.required_fields
        (fun n hn => mem_keys_jsonPrep f r rp n hprep (h n hn)) [] with ⟨lr0, hpull⟩
    exact ⟨_, formatDict_eq_of_pull_ok f r rp lr0 hprep hpull⟩
  · intro rp e h hprep hfe
    rcases pullFields_ok rp.attrs f.required_fields
        (fun n hn => mem_keys_jsonPrep f r rp n hprep (h n hn)) [] with ⟨lr0, hpull⟩
    exact format_error_elim_of_formatDict_ok f r _ _ e
      (formatDict_eq_of_pull_ok f r rp lr0 hprep hpull) hfe

/-- C1 witness: a template naming the absent `unknown_key` fails; a
template of present fields builds the mapping; and with the fields present
and preparation successful, a failing custom serializer yields exactly the
serialization error. -/
theorem spec_c1_witness :
    (∃ e, (mkJsonFormatter (some "%(unknown_key)s %(message)s") none none none).format
        recPlain = .error e) ∧
    (∃ p, (mkJsonFormatter (some "%(msg)s") none none none).formatDict recPlain =
        .ok p) ∧
    ("TypeError: not JSON serializable" = "TypeError: not JSON serializable") :=
  ⟨(spec_c1 (mkJsonFormatter (some "%(unknown_key)s %(message)s") none none none)
       recPlain).1 ⟨"unknown_key", by decide, by decide, by decide, by decide⟩,
   (spec_c1 (mkJsonFormatter (some "%(msg)s") none none none) recPlain).2.1
     ⟨[("msg", .str "test"), ("args", .null), ("exc_info", .null),
       ("exc_text", .null), ("message", .str "test")]⟩ (by decide) rfl,
   (spec_c1 (mkJsonFormatter (some "%(msg)s") none none (some (fun _ => none)))
       recPlain).2.2
     ⟨[("msg", .str "test"), ("args", .null), ("exc_info", .null),
       ("exc_text", .null), ("message", .str "test")]⟩
     "TypeError: not JSON serializable" (by decide) rfl rfl⟩

/-- C1 counterexample: the claim as stated fails for the name `message` —
it is in the default template and absent from the record's attributes, yet
`format` succeeds, because `format` assigns `record.message` before the
field loop. -/
theorem spec_c1_counterexample :
    "message" ∈ (mkJsonFormatter none none none none).required_fields ∧
    "message" ∉ odKeys recPlain.attrs ∧
    (mkJsonFormatter none none none none).format recPlain =
      .ok (⟨[("msg", .str "test"), ("args", .null), ("exc_info", .null),
             ("exc_text", .null), ("message", .str "test")]⟩,
           .obj [("message", .str "test")]) :=
  ⟨by decide, by decide, rfl⟩

/-! ### C2 -/

/-- C2 (amended): for a record with a dict payload, every emit-time extra
attribute whose key is neither skipped (template or reserved) nor private
appears in the output mapping bound to the attribute's value — even when
the same key occurs in the payload: `merge_record_extra` runs after
`log_record.update(extras)`, so the record-attribute value wins, not the
mapping-payload value. -/
theorem spec_c2 (f : JsonFormatter) (r : LogRecord) (P : List (String × JValue))
    (k : String) (v : JValue) (r2 : LogRecord) (lr : List (String × JValue))
    (hnd : (odKeys r.attrs).Nodup)
    (_hmsg : r.msg = .obj P)
    (hlook : odLookup r.attrs k = some v)
    (hskip : k ∉ f.skip_fields)
    (hpriv : startsUnderscore k = false)
    (hfd : f.formatDict r = .ok (r2, lr)) :
    odLookup lr k = some v := by
  have hnm : k ≠ "message" := fun he => hskip (mem_skip_fields_reserved f k (by rw [he]; decide))
  have hna : k ≠ "asctime" := fun he => hskip (mem_skip_fields_reserved f k (by rw [he]; decide))
  have hne : k ≠ "exc_text" := fun he => hskip (mem_skip_fields_reserved f k (by rw [he]; decide))
  rcases formatDict_ok_elim f r (r2, lr) hfd with ⟨rp, lr0, hprep, hpull, heq⟩
  have hlr : lr = merge_record_extra (jsonExcRecord rp)
      (odUpdate (excStep rp lr0) (payloadEntries r)) f.skip_fields :=
    congrArg Prod.snd heq
  rw [hlr]
  apply odLookup_merge_extra
  · exact nodup_jsonExc _ (nodup_jsonPrep f r rp hprep hnd)
  · show odLookup (jsonExcRecord rp).attrs k = some v
    have h1 : (jsonExcRecord rp).getAttr k = rp.getAttr k := getAttr_jsonExc _ k hne
    have h2 : rp.getAttr k = r.getAttr k := getAttr_jsonPrep f r rp k hprep hnm hna
    exact (h1.trans h2).trans hlook
  · exact hskip
  · exact hpriv

/-- C2 witness: the collision record (payload `k ↦ 1`, extra attribute
`k ↦ 2`) yields `k ↦ 2` in the output mapping. -/
theorem spec_c2_witness :
    odLookup [("message", JValue.null), ("k", JValue.int 2)] "k" = some (.int 2) :=
  spec_c2 (mkJsonFormatter none none none none) recCollide [("k", .int 1)] "k" (.int 2)
    ⟨[("msg", .obj [("k", .int 1)]), ("args", .null), ("exc_info", .null),
      ("exc_text", .null), ("k", .int 2), ("message", .null)]⟩
    [("message", JValue.null), ("k", JValue.int 2)]
    (by decide) rfl rfl (by decide) rfl rfl

/-- C2 counterexample: on the collision record the claim's "payload wins"
clause fails — the output binds `k` to the extra attribute's value `2`,
not the payload's `1`. -/
theorem spec_c2_counterexample :
    (mkJsonFormatter none none none none).formatDict recCollide =
      .ok (⟨[("msg", .obj [("k", .int 1)]), ("args", .null), ("exc_info", .null),
             ("exc_text", .null), ("k", .int 2), ("message", .null)]⟩,
           [("message", .null), ("k", .int 2)]) ∧
    (JValue.int 2) ≠ (JValue.int 1) :=
  ⟨rfl, by simp⟩

/-! ### C3 -/

/-- C3: the output mapping's key order is deterministic — the first
occurrences, in order, of: the template's field names in template order,
then `exc` when the record carries an exception, then the dict payload's
keys in their original order, then the merged extra keys in
attribute-iteration order; and no key repeats. -/
theorem spec_c3 (f : JsonFormatter) (r r2 : LogRecord) (lr : List (String × JValue))
    (hfd : f.formatDict r = .ok (r2, lr)) :
    odKeys lr =
      dedupKeys (f.required_fields ++ (if excPresent r then ["exc"] else []) ++
        payloadKeys r ++ extraKeys r f.skip_fields) ∧
    (odKeys lr).Nodup := by
  rcases formatDict_ok_elim f r (r2, lr) hfd with ⟨rp, lr0, hprep, hpull, heq⟩
  have hlr : lr = merge_record_extra (jsonExcRecord rp)
      (odUpdate (excStep rp lr0) (payloadEntries r)) f.skip_fields :=
    congrArg Prod.snd heq
  have hfe : filterExtras (jsonExcRecord rp) f.skip_fields =
      filterExtras r f.skip_fields := by
    rw [filterExtras_jsonExc _ _ (mem_skip_fields_reserved f _ (by decide)),
        filterExtras_jsonPrep f r rp _ hprep (mem_skip_fields_reserved f _ (by decide))
          (mem_skip_fields_reserved f _ (by decide))]
  have hexc : odKeys (excStep rp lr0) =
      (if excPresent r then ["exc"] else []).foldl addKey (odKeys lr0) := by
    unfold excStep excPresent
    rw [excInfo_jsonPrep f r rp hprep]
    cases hri : r.excInfo with
    | some x => simp [odKeys_odInsert]
    | none => simp
  have hkeys : odKeys lr =
      dedupKeys (f.required_fields ++ (if excPresent r then ["exc"] else []) ++
        payloadKeys r ++ extraKeys r f.skip_fields) := by
    rw [hlr, merge_record_extra_eq, odKeys_odUpdate, hfe, odKeys_odUpdate, hexc,
        pullFields_keys _ _ _ _ hpull]
    unfold dedupKeys
    rw [List.foldl_append, List.foldl_append, List.foldl_append]
    simp [odKeys, extraKeys, payloadKeys]
  exact ⟨hkeys, hkeys ▸ nodup_dedupKeys _⟩

/-- C3 witness: on the single-frame exception record with template
`%(levelname)s %(message)s`, the keys come out as `levelname`, `message`,
`exc`, with no repetition. -/
theorem spec_c3_witness :
    odKeys [("levelname", JValue.str "ERROR"), ("message", JValue.str "snafu"),
            ("exc", JValue.obj
               [("type", JValue.str "Exception"), ("value", JValue.other "fubar"),
                ("trace", JValue.arr
                   [JValue.obj [("file", JValue.str "/src/caller.ext"),
                                ("ln", JValue.int 41), ("fn", JValue.str "f")]])])] =
      dedupKeys ((mkJsonFormatter (some "%(levelname)s %(message)s") none none
          none).required_fields ++
        (if excPresent recExc then ["exc"] else []) ++ payloadKeys recExc ++
        extraKeys recExc
          (mkJsonFormatter (some "%(levelname)s %(message)s") none none
              none).skip_fields) ∧
    (odKeys [("levelname", JValue.str "ERROR"), ("message", JValue.str "snafu"),
             ("exc", JValue.obj
                [("type", JValue.str "Exception"), ("value", JValue.other "fubar"),
                 ("trace", JValue.arr
                    [JValue.obj [("file", JValue.str "/src/caller.ext"),
                                 ("ln", JValue.int 41), ("fn", JValue.str "f")]])])]).Nodup :=
  spec_c3 (mkJsonFormatter (some "%(levelname)s %(message)s") none none none) recExc
    ⟨[("msg", .str "snafu"), ("args", .null),
      ("exc_info", .excinfo "Exception" "fubar" [⟨"/src/caller.ext", 41, "f"⟩]),
      ("exc_text", .obj
         [("type", .str "Exception"), ("value", .other "fubar"),
          ("trace", .arr
             [.obj [("file", .str "/src/caller.ext"), ("ln", .int 41),
                    ("fn", .str "f")]])]),
      ("levelname", .str "ERROR"), ("message", .str "snafu")]⟩
    [("levelname", JValue.str "ERROR"), ("message", JValue.str "snafu"),
     ("exc", JValue.obj
        [("type", JValue.str "Exception"), ("value", JValue.other "fubar"),
         ("trace", JValue.arr
            [JValue.obj [("file", JValue.str "/src/caller.ext"),
                         ("ln", JValue.int 41), ("fn", JValue.str "f")]])])]
    rfl

/-! ### C4 -/

/-- C4: the structured exception block caches on the record a dict holding
the exception's type name, the exception instance (whose default JSON
encoding is its message string), and the traceback frames mapped in linked
(outer-to-inner, oldest-first) order, each with `file`, `ln` and `fn`; in
the single-frame scenario (`f`, line 41, file ending `caller.ext`) the
block has exactly that one frame. -/
theorem spec_c4 :
    (∀ (f : JsonFormatter) (r : LogRecord) (t m : String) (tr : List TBFrame)
       (r2 : LogRecord) (lr : List (String × JValue)),
       r.getAttr "exc_info" = some (.excinfo t m tr) →
       pyTruthy (r.getAttrD "exc_text") = false →
       f.formatDict r = .ok (r2, lr) →
       r2.getAttr "exc_text" = some (formatException t m tr)) ∧
    (∀ (t m : String) (tr : List TBFrame),
       odLookup (jObjEntries (formatException t m tr)) "type" = some (.str t) ∧
       odLookup (jObjEntries (formatException t m tr)) "value" = some (.other m) ∧
       odLookup (jObjEntries (formatException t m tr)) "trace" =
         some (.arr (tr.map frameObj))) ∧
    (∀ m : String,
       pyEncode (some (default_json_handler none)) 2 (.other m) = some (.str m)) ∧
    (formatException "Exception" "fubar" [⟨"/src/caller.ext", 41, "f"⟩] =
       .obj [("type", .str "Exception"), ("value", .other "fubar"),
             ("trace", .arr [.obj [("file", .str "/src/caller.ext"),
                                   ("ln", .int 41), ("fn", .str "f")]])] ∧
     strEndsWith "/src/caller.ext" "caller.ext" = true) := by
  refine ⟨?_, fun t m tr => ⟨rfl, rfl, rfl⟩, fun m => rfl, rfl, rfl⟩
  intro f r t m tr r2 lr hei het hfd
  rcases formatDict_ok_elim f r (r2, lr) hfd with ⟨rp, lr0, hprep, hpull, heq⟩
  have hr2 : r2 = jsonExcRecord rp := congrArg Prod.fst heq
  have hrei : r.excInfo = some (t, m, tr) := by unfold LogRecord.excInfo; rw [hei]
  have hpe : rp.excInfo = some (t, m, tr) :=
    (excInfo_jsonPrep f r rp hprep).trans hrei
  have hpet : pyTruthy (rp.getAttrD "exc_text") = false := by
    unfold LogRecord.getAttrD
    rw [getAttr_jsonPrep f r rp _ hprep (by decide) (by decide)]
    exact het
  rw [hr2]
  unfold jsonExcRecord
  rw [hpe]
  simp only [hpet, Bool.false_eq_true, if_false]
  exact getAttr_setAttr_self _ _ _

/-- C4 witness: formatting the single-frame exception record caches the
expected structured block on the record. -/
theorem spec_c4_witness :
    (⟨[("msg", .str "snafu"), ("args", .null),
       ("exc_info", .excinfo "Exception" "fubar" [⟨"/src/caller.ext", 41, "f"⟩]),
       ("exc_text", .obj
          [("type", .str "Exception"), ("value", .other "fubar"),
           ("trace", .arr
              [.obj [("file", .str "/src/caller.ext"), ("ln", .int 41),
                     ("fn", .str "f")]])]),
       ("levelname", .str "ERROR"), ("message", .str "snafu")]⟩ : LogRecord).getAttr
        "exc_text" =
      some (formatException "Exception" "fubar" [⟨"/src/caller.ext", 41, "f"⟩]) :=
  spec_c4.1 (mkJsonFormatter (some "%(levelname)s %(message)s") none none none) recExc
    "Exception" "fubar" [⟨"/src/caller.ext", 41, "f"⟩]
    ⟨[("msg", .str "snafu"), ("args", .null),
      ("exc_info", .excinfo "Exception" "fubar" [⟨"/src/caller.ext", 41, "f"⟩]),
      ("exc_text", .obj
         [("type", .str "Exception"), ("value", .other "fubar"),
          ("trace", .arr
             [.obj [("file", .str "/src/caller.ext"), ("ln", .int 41),
                    ("fn", .str "f")]])]),
      ("levelname", .str "ERROR"), ("message", .str "snafu")]⟩
    [("levelname", JValue.str "ERROR"), ("message", JValue.str "snafu"),
     ("exc", JValue.obj
        [("type", JValue.str "Exception"), ("value", JValue.other "fubar"),
         ("trace", JValue.arr
            [JValue.obj [("file", JValue.str "/src/caller.ext"),
                         ("ln", JValue.int 41), ("fn", JValue.str "f")]])])]
    rfl rfl rfl

/-! ### C5 -/

theorem mem_addKey (ks : List String) (k k2 : String) :
    k ∈ addKey ks k2 ↔ k ∈ ks ∨ k = k2 := by
  unfold addKey
  by_cases h : k2 ∈ ks
  · simp only [if_pos h]
    constructor
    · exact Or.inl
    · rintro (hm | rfl)
      · exact hm
      · exact h
  · simp [if_neg h]

theorem mem_foldl_addKey (l : List String) :
    ∀ init k, k ∈ l.foldl addKey init ↔ k ∈ init ∨ k ∈ l := by
  induction l with
  | nil => intro init k; simp
  | cons a rest ih =>
      intro init k
      rw [List.foldl_cons, ih, mem_addKey]
      simp only [List.mem_cons]
      tauto

theorem payloadEntries_eq (r : LogRecord) (P : List (String × JValue))
    (h : r.msg = .obj P) : payloadEntries r = P := by
  unfold payloadEntries
  rw [h]

theorem odLookup_excStep_ne (rec : LogRecord) (lr0 : List (String × JValue))
    (k : String) (h : k ≠ "exc") : odLookup (excStep rec lr0) k = odLookup lr0 k := by
  unfold excStep
  split
  · exact odLookup_odInsert_ne _ _ _ _ h
  · rfl

theorem jsonPrep_message_null (f : JsonFormatter) (r rp : LogRecord)
    (P : List (String × JValue)) (hmsg : r.msg = .obj P)
    (h : jsonPrepRecord f r = .ok rp) :
    rp.getAttr "message" = some .null := by
  rcases jsonPrep_ok_elim2 f r rp h with ⟨r1, hm, ha⟩
  have hr1 : r1 = r.setAttr "message" .null := by
    unfold msgPrep at hm
    simp only [hmsg] at hm
    simp only [Except.ok.injEq] at hm
    exact hm.symm
  rcases asctimePrepJson_ok_shape f r1 rp ha with h2 | ⟨t, ht⟩
  · rw [h2, hr1]
    exact getAttr_setAttr_self _ _ _
  · rw [ht, getAttr_setAttr_ne _ _ _ _ (by decide), hr1]
    exact getAttr_setAttr_self _ _ _

/-- C5 (amended): for a record whose message is a mapping `M`, the output
mapping's keys are a superset of `M`'s keys; each `M` entry keeps its value
unless the same key is also a merged extra attribute (which overwrites it);
and the `message` field is absent or null unless `M` itself binds
`message`. -/
theorem spec_c5 (f : JsonFormatter) (r : LogRecord) (P : List (String × JValue))
    (r2 : LogRecord) (lr : List (String × JValue))
    (_hnd : (odKeys r.attrs).Nodup)
    (hpnd : (P.map Prod.fst).Nodup)
    (hmsg : r.msg = .obj P)
    (hfd : f.formatDict r = .ok (r2, lr)) :
    (∀ k ∈ P.map Prod.fst, k ∈ odKeys lr) ∧
    (∀ k v, (k, v) ∈ P → k ∉ extraKeys r f.skip_fields → odLookup lr k = some v) ∧
    ("message" ∉ P.map Prod.fst →
      odLookup lr "message" = none ∨ odLookup lr "message" = some .null) := by
  rcases formatDict_ok_elim f r (r2, lr) hfd with ⟨rp, lr0, hprep, hpull, heq⟩
  have hlr : lr = merge_record_extra (jsonExcRecord rp)
      (odUpdate (excStep rp lr0) (payloadEntries r)) f.skip_fields :=
    congrArg Prod.snd heq
  have hfe : filterExtras (jsonExcRecord rp) f.skip_fields =
      filterExtras r f.skip_fields := by
    rw [filterExtras_jsonExc _ _ (mem_skip_fields_reserved f _ (by decide)),
        filterExtras_jsonPrep f r rp _ hprep (mem_skip_fields_reserved f _ (by decide))
          (mem_skip_fields_reserved f _ (by decide))]
  have hpay := payloadEntries_eq r P hmsg
  refine ⟨?_, ?_, ?_⟩
  · intro k hk
    rw [hlr, merge_record_extra_eq, odKeys_odUpdate, mem_foldl_addKey]
    left
    rw [odKeys_odUpdate, mem_foldl_addKey, hpay]
    right
    exact hk
  · intro k v hkv hkx
    rw [hlr, merge_record_extra_eq]
    rw [odLookup_odUpdate_not_mem _ _ (by rw [hfe]; exact hkx)]
    exact odLookup_odUpdate_mem (payloadEntries r) k v (by rw [hpay]; exact hpnd)
      (by rw [hpay]; exact hkv) _
  · intro hnp
    have hstep : odLookup (odUpdate (excStep rp lr0)
        (payloadEntries r)) "message" = odLookup lr0 "message" := by
      rw [odLookup_odUpdate_not_mem _ _ (by rw [hpay]; exact hnp),
          odLookup_excStep_ne _ _ _ (by decide)]
    have hmerge : odLookup lr "message" =
        odLookup lr0 "message" := by
      rw [hlr, odLookup_merge_skip _ _ _ (mem_skip_fields_reserved f _ (by decide)),
          hstep]
    by_cases hm : "message" ∈ f.required_fields
    · right
      rw [hmerge, pullFields_lookup_mem _ _ _ hm _ _ hpull]
      exact jsonPrep_message_null f r rp P hmsg hprep
    · left
      rw [hmerge, pullFields_lookup_not_mem _ _ _ hm _ _ hpull]
      rfl

/-- C5 witness: the dict-payload record's rendered mapping contains the
payload entry `text` with its value, and binds `message` to null. -/
theorem spec_c5_witness :
    odLookup [("message", JValue.null), ("text", JValue.str "testing logging"),
              ("num", JValue.int 1), ("5", JValue.str "9"),
              ("nested", JValue.obj [("more", JValue.str "data")])] "text" =
      some (.str "testing logging") ∧
    (odLookup [("message", JValue.null), ("text", JValue.str "testing logging"),
               ("num", JValue.int 1), ("5", JValue.str "9"),
               ("nested", JValue.obj [("more", JValue.str "data")])] "message" = none ∨
     odLookup [("message", JValue.null), ("text", JValue.str "testing logging"),
               ("num", JValue.int 1), ("5", JValue.str "9"),
               ("nested", JValue.obj [("more", JValue.str "data")])] "message" =
       some JValue.null) :=
  ⟨(spec_c5 (mkJsonFormatter none none none none) recTextDict
      [("text", .str "testing logging"), ("num", .int 1), ("5", .str "9"),
       ("nested", .obj [("more", .str "data")])]
      ⟨[("msg", .obj [("text", .str "testing logging"), ("num", .int 1),
                      ("5", .str "9"), ("nested", .obj [("more", .str "data")])]),
        ("args", .null), ("exc_info", .null), ("exc_text", .null),
        ("message", .null)]⟩
      [("message", JValue.null), ("text", JValue.str "testing logging"),
       ("num", JValue.int 1), ("5", JValue.str "9"),
       ("nested", JValue.obj [("more", JValue.str "data")])]
      (by decide) (by decide) rfl rfl).2.1 "text" (.str "testing logging")
      (by simp) (by decide),
   (spec_c5 (mkJsonFormatter none none none none) recTextDict
      [("text", .str "testing logging"), ("num", .int 1), ("5", .str "9"),
       ("nested", .obj [("more", .str "data")])]
      ⟨[("msg", .obj [("text", .str "testing logging"), ("num", .int 1),
                      ("5", .str "9"), ("nested", .obj [("more", .str "data")])]),
        ("args", .null), ("exc_info", .null), ("exc_text", .null),
        ("message", .null)]⟩
      [("message", JValue.null), ("text", JValue.str "testing logging"),
       ("num", JValue.int 1), ("5", JValue.str "9"),
       ("nested", JValue.obj [("more", JValue.str "data")])]
      (by decide) (by decide) rfl rfl).2.2 (by decide)⟩

/-- C5 counterexample: with payload `{k: 1, message: "hi"}` and extra
attribute `k = 2`, the output binds `k` to `2` (not the payload's matching
value) and binds `message` to the string `"hi"` (neither absent nor null),
refuting the claim as stated. -/
theorem spec_c5_counterexample :
    (mkJsonFormatter none none none none).formatDict recPayloadMsg =
      .ok (⟨[("msg", .obj [("k", .int 1), ("message", .str "hi")]), ("args", .null),
             ("exc_info", .null), ("exc_text", .null), ("k", .int 2),
             ("message", .null)]⟩,
           [("message", .str "hi"), ("k", .int 2)]) ∧
    (JValue.int 2) ≠ (JValue.int 1) ∧ (JValue.str "hi") ≠ JValue.null :=
  ⟨rfl, by simp, by simp⟩

/-! ### C6 -/

theorem strftime_default_dt (y mo d h mi s2 : Nat) :
    strftime6 "%Y-%m-%dT%H:%M" y mo d h mi s2 =
      pad4 y ++ "-" ++ pad2 mo ++ "-" ++ pad2 d ++ "T" ++ pad2 h ++ ":" ++ pad2 mi := by
  show pad4 y ++ ("-" ++ (pad2 mo ++ ("-" ++ (pad2 d ++ ("T" ++ (pad2 h ++
      (":" ++ (pad2 mi ++ "")))))))) = _
  rw [String.append_empty]
  simp only [← String.append_assoc]

theorem strftime_date (y mo d h mi s2 : Nat) :
    strftime6 "%Y-%m-%d" y mo d h mi s2 =
      pad4 y ++ "-" ++ pad2 mo ++ "-" ++ pad2 d := by
  show pad4 y ++ ("-" ++ (pad2 mo ++ ("-" ++ (pad2 d ++ "")))) = _
  rw [String.append_empty]
  simp only [← String.append_assoc]

theorem strftime_time (y mo d h mi s2 : Nat) :
    strftime6 "%H:%M" y mo d h mi s2 = pad2 h ++ ":" ++ pad2 mi := by
  show pad2 h ++ (":" ++ (pad2 mi ++ "")) = _
  rw [String.append_empty]
  simp only [← String.append_assoc]

/-- C6: with no custom encoder or serializer, construction installs the
built-in default handler, which renders a datetime with the configured
pattern — defaulting to `%Y-%m-%dT%H:%M` (no seconds) — a date as
`%Y-%m-%d`, a time as `%H:%M`, and any other object via its string
rendering; end to end, the `1999-12-31 23:59` payload timestamp renders as
the string `"1999-12-31T23:59"`. -/
theorem spec_c6 :
    (∀ (fmt dfmt : Option String),
       (mkJsonFormatter fmt dfmt none none).json_default =
         some (default_json_handler dfmt)) ∧
    (∀ y mo d h mi s2 : Nat,
       default_json_handler none (.datetime y mo d h mi s2) =
         .str (pad4 y ++ "-" ++ pad2 mo ++ "-" ++ pad2 d ++ "T" ++ pad2 h ++ ":" ++
           pad2 mi)) ∧
    (default_json_handler (some "%Y") (.datetime 1999 12 31 23 59 0) = .str "1999") ∧
    (∀ y mo d : Nat,
       default_json_handler none (.date y mo d) =
         .str (pad4 y ++ "-" ++ pad2 mo ++ "-" ++ pad2 d)) ∧
    (∀ h mi s2 : Nat,
       default_json_handler none (.time h mi s2) = .str (pad2 h ++ ":" ++ pad2 mi)) ∧
    (∀ s2 : String, default_json_handler none (.other s2) = .str s2) ∧
    ((mkJsonFormatter none none none none).format recDate =
       .ok (⟨[("msg", .obj [("adate", .datetime 1999 12 31 23 59 0)]), ("args", .null),
              ("exc_info", .null), ("exc_text", .null), ("message", .null)]⟩,
            .obj [("message", .null), ("adate", .str "1999-12-31T23:59")])) :=
  ⟨fun _ _ => rfl,
   fun y mo d h mi s2 => congrArg JValue.str (strftime_default_dt y mo d h mi s2),
   rfl,
   fun y mo d => congrArg JValue.str (strftime_date y mo d 0 0 0),
   fun h mi s2 => congrArg JValue.str (strftime_time 1900 1 1 h mi s2),
   fun _ => rfl,
   rfl⟩

/-! ### C7 -/

/-- C7: supplying a custom per-value encoder keeps it (the built-in default
handler is not installed); `json.dumps`'s encoding invokes the custom
function on every unencodable value; a fully custom serializer replaces the
standard encoding entirely; and end to end, a constant `"very custom"`
encoder makes exactly that string appear for the timestamp payload field
while the adjacent primitive field renders unchanged. -/
theorem spec_c7 :
    (∀ (fmt dfmt : Option String) (g : JValue → JValue)
       (e : Option (List (String × JValue) → Option JValue)),
       (mkJsonFormatter fmt dfmt (some g) e).json_default = some g) ∧
    (∀ (g : JValue → JValue) (fuel : Nat) (v : JValue),
       jsonUnencodable v = true →
       pyEncode (some g) (fuel + 1) v = pyEncode (some g) fuel (g v)) ∧
    (∀ (dflt : Option (JValue → JValue))
       (enc : List (String × JValue) → Option JValue) (lr : List (String × JValue)),
       dumps dflt (some enc) lr = enc lr) ∧
    ((mkJsonFormatter none none (some veryCustom) none).format recDateNormal =
       .ok (⟨[("msg", .obj [("adate", .datetime 1999 12 31 23 59 0),
                            ("normal", .str "value")]), ("args", .null),
              ("exc_info", .null), ("exc_text", .null), ("message", .null)]⟩,
            .obj [("message", .null), ("adate", .str "very custom"),
                  ("normal", .str "value")])) := by
  refine ⟨fun _ _ g e => ?_, fun g fuel v hv => ?_, fun _ enc lr => rfl, rfl⟩
  · cases e <;> rfl
  · cases v with
    | null => simp [jsonUnencodable, jsonSerializable] at hv
    | bool b => simp [jsonUnencodable, jsonSerializable] at hv
    | int n => simp [jsonUnencodable, jsonSerializable] at hv
    | str _ => simp [jsonUnencodable, jsonSerializable] at hv
    | arr xs => simp [jsonUnencodable, jsonSerializable] at hv
    | obj kvs => simp [jsonUnencodable, jsonSerializable] at hv
    | datetime y mo d h mi s2 => rfl
    | date y mo d => rfl
    | time h mi s2 => rfl
    | other s2 => rfl
    | excinfo t m tr => rfl

/-- C7 witness: the custom encoder is the function `json.dumps` invokes on
the unencodable timestamp. -/
theorem spec_c7_witness :
    pyEncode (some veryCustom) 2 (.datetime 1999 12 31 23 59 0) =
      pyEncode (some veryCustom) 1 (veryCustom (.datetime 1999 12 31 23 59 0)) :=
  spec_c7.2.1 veryCustom 1 (.datetime 1999 12 31 23 59 0) rfl

/-! ### C8 -/

/-- C8 (the code evaluated at the failing input): on the dict-payload
record of the repository's own `testLogADict` text test, the formatter
appends the extras rendered with `str()` — an unquoted `text: testing
logging` and a single-quoted `\x7b'more': 'data'\x7d` — whereas the test
(and the claim) expect JSON-style quoting (`text: "testing logging"`,
`\x7b"more": "data"\x7d`), which never occurs in the output. -/
theorem spec_c8 :
    (mkExtraTextFormatter none none).format recTextDict = .ok (c8Record, c8Line) ∧
    hasSub c8Line "text: testing logging" = true ∧
    hasSub c8Line "text: \"testing logging\"" = false ∧
    hasSub c8Line ("nested: \x7b" ++ sq ++ "more" ++ sq ++ ": " ++ sq ++ "data" ++
      sq ++ "\x7d") = true ∧
    hasSub c8Line "nested: \x7b\"more\": \"data\"\x7d" = false :=
  ⟨rfl, rfl, rfl, rfl, rfl⟩

/-! ### C9 -/

theorem mem_setAttr_elim (r : LogRecord) (k : String) (v : JValue)
    (kv : String × JValue) (h : kv ∈ (r.setAttr k v).attrs) :
    kv ∈ r.attrs ∨ kv.1 = k :=
  mem_odInsert r.attrs k v kv h

theorem stdPrep_ok_shape (fmt : String) (dfmt : Option String) (r rp : LogRecord)
    (h : stdPrepRecord fmt dfmt r = .ok rp) :
    ∃ v, rp = r.setAttr "message" v ∨
      ∃ t, rp = (r.setAttr "message" v).setAttr "asctime" t := by
  unfold stdPrepRecord at h
  match hg : r.getMessage with
  | .error e => rw [hg] at h; simp at h
  | .ok m =>
      simp only [hg] at h
      split at h
      · match hf : formatTime (r.setAttr "message" (.str m)) dfmt with
        | .error e => rw [hf] at h; simp [Except.map] at h
        | .ok t =>
            rw [hf] at h
            simp only [Except.map, Except.ok.injEq] at h
            exact ⟨.str m, Or.inr ⟨.str t, h.symm⟩⟩
      · simp only [Except.ok.injEq] at h
        exact ⟨.str m, Or.inl h.symm⟩

theorem getAttr_stdPrep (fmt : String) (dfmt : Option String) (r rp : LogRecord)
    (k : String) (h : stdPrepRecord fmt dfmt r = .ok rp)
    (h1 : k ≠ "message") (h2 : k ≠ "asctime") :
    rp.getAttr k = r.getAttr k := by
  rcases stdPrep_ok_shape fmt dfmt r rp h with ⟨v, hv | ⟨t, ht⟩⟩
  · rw [hv, getAttr_setAttr_ne _ _ _ _ h1]
  · rw [ht, getAttr_setAttr_ne _ _ _ _ h2, getAttr_setAttr_ne _ _ _ _ h1]

theorem getAttr_stdExc (r : LogRecord) (k : String) (h : k ≠ "exc_text") :
    (stdExcRecord r).getAttr k = r.getAttr k := by
  unfold stdExcRecord
  split
  · split
    · rfl
    · exact getAttr_setAttr_ne _ _ _ _ h
  · rfl

theorem stdFormat_ok_record (fmt : String) (dfmt : Option String)
    (rec r2 : LogRecord) (line : String)
    (h : stdFormat fmt dfmt rec = .ok (r2, line)) :
    ∃ rp, stdPrepRecord fmt dfmt rec = .ok rp ∧ r2 = stdExcRecord rp := by
  simp only [stdFormat] at h
  match hprep : stdPrepRecord fmt dfmt rec with
  | .error e => rw [hprep] at h; simp at h
  | .ok rp =>
      simp only [hprep] at h
      match hp : pyFormatMap fmt rp.attrs with
      | .error e => rw [hp] at h; simp at h
      | .ok s =>
          rw [hp] at h
          simp only [Except.ok.injEq] at h
          exact ⟨rp, rfl, (congrArg Prod.fst h).symm⟩

theorem textFormat_ok_record (f : ExtraTextFormatter) (r r2 : LogRecord)
    (line : String) (h : f.format r = .ok (r2, line)) :
    ∃ rp, stdPrepRecord f.fmt f.datefmt (payloadExpandText r) = .ok rp ∧
      r2 = stdExcRecord rp := by
  simp only [ExtraTextFormatter.format] at h
  match hs : stdFormat f.fmt f.datefmt (payloadExpandText r) with
  | .error e => rw [hs] at h; simp at h
  | .ok (ra, la) =>
      rw [hs] at h
      simp only [Except.ok.injEq] at h
      have hr2 : r2 = ra := (congrArg Prod.fst h).symm
      rcases stdFormat_ok_record _ _ _ _ _ hs with ⟨rp, hprep, hra⟩
      exact ⟨rp, hprep, hr2.trans hra⟩

theorem payloadExpandText_eq_of_not_dict (r : LogRecord)
    (h : msgIsDict r = false) : payloadExpandText r = r := by
  unfold payloadExpandText
  unfold msgIsDict at h
  split
  · rw [‹r.msg = _›] at h
    simp at h
  · rfl

theorem getAttr_foldSetAttr_not_mem (kvs : List (String × JValue)) (k : String)
    (hk : k ∉ kvs.map Prod.fst) :
    ∀ r : LogRecord,
      (kvs.foldl (fun r kv => r.setAttr kv.1 kv.2) r).getAttr k = r.getAttr k := by
  induction kvs with
  | nil => intro r; rfl
  | cons kv rest ih =>
      intro r
      simp only [List.map_cons, List.mem_cons] at hk
      push_neg at hk
      rw [List.foldl_cons, ih hk.2, getAttr_setAttr_ne _ _ _ _ hk.1]

theorem getAttr_payloadExpandText (r : LogRecord) (P : List (String × JValue))
    (k : String) (hmsg : r.msg = .obj P) (hk : k ∉ P.map Prod.fst)
    (hkm : k ≠ "msg") : (payloadExpandText r).getAttr k = r.getAttr k := by
  unfold payloadExpandText
  rw [hmsg]
  rw [getAttr_setAttr_ne _ _ _ _ hkm]
  exact getAttr_foldSetAttr_not_mem P k hk r

/-- C9 (amended): `JsonFormatter.format` mutates only the memoized
`message`, `asctime` and `exc_text` attributes; `ExtraTextFormatter.format`
mutates only those when the message is not a mapping, and when the message
is a mapping it additionally sets one attribute per payload key and
overwrites `msg` — every other attribute is preserved. -/
theorem spec_c9 :
    (∀ (f : JsonFormatter) (r r2 : LogRecord) (lr : List (String × JValue)),
       f.formatDict r = .ok (r2, lr) →
       ∀ k : String, k ≠ "message" → k ≠ "asctime" → k ≠ "exc_text" →
         r2.getAttr k = r.getAttr k) ∧
    (∀ (f : ExtraTextFormatter) (r r2 : LogRecord) (line : String),
       msgIsDict r = false → f.format r = .ok (r2, line) →
       ∀ k : String, k ≠ "message" → k ≠ "asctime" → k ≠ "exc_text" →
         r2.getAttr k = r.getAttr k) ∧
    (∀ (f : ExtraTextFormatter) (r r2 : LogRecord) (P : List (String × JValue))
       (line : String),
       r.msg = .obj P → f.format r = .ok (r2, line) →
       ∀ k : String, k ≠ "message" → k ≠ "asctime" → k ≠ "exc_text" → k ≠ "msg" →
         k ∉ P.map Prod.fst → r2.getAttr k = r.getAttr k) := by
  refine ⟨?_, ?_, ?_⟩
  · intro f r r2 lr hfd k h1 h2 h3
    rcases formatDict_ok_elim f r (r2, lr) hfd with ⟨rp, lr0, hprep, hpull, heq⟩
    have hr2 : r2 = jsonExcRecord rp := congrArg Prod.fst heq
    rw [hr2, getAttr_jsonExc _ _ h3]
    exact getAttr_jsonPrep f r rp k hprep h1 h2
  · intro f r r2 line hnd hfmt k h1 h2 h3
    rcases textFormat_ok_record f r r2 line hfmt with ⟨rp, hprep, hr2⟩
    rw [payloadExpandText_eq_of_not_dict r hnd] at hprep
    rw [hr2, getAttr_stdExc _ _ h3]
    exact getAttr_stdPrep _ _ _ _ _ hprep h1 h2
  · intro f r r2 P line hmsg hfmt k h1 h2 h3 h4 h5
    rcases textFormat_ok_record f r r2 line hfmt with ⟨rp, hprep, hr2⟩
    rw [hr2, getAttr_stdExc _ _ h3,
        getAttr_stdPrep _ _ _ _ _ hprep h1 h2]
    exact getAttr_payloadExpandText r P k hmsg h5 h4

/-- C9 witness: instances of all three parts — `msg` preserved by the JSON
formatter, `msg` preserved by the text formatter on a string message, and
`levelname` preserved by the text formatter on a dict message. -/
theorem spec_c9_witness :
    ((⟨[("msg", .str "test"), ("args", .null), ("exc_info", .null),
        ("exc_text", .null), ("message", .str "test")]⟩ : LogRecord).getAttr "msg" =
      recPlain.getAttr "msg") ∧
    ((⟨[("msg", .str "test"), ("args", .null), ("exc_info", .null),
        ("exc_text", .null), ("message", .str "test")]⟩ : LogRecord).getAttr "args" =
      recPlain.getAttr "args") ∧
    (c8Record.getAttr "levelname" = recTextDict.getAttr "levelname") :=
  ⟨spec_c9.1 (mkJsonFormatter none none none none) recPlain
      ⟨[("msg", .str "test"), ("args", .null), ("exc_info", .null),
        ("exc_text", .null), ("message", .str "test")]⟩
      [("message", JValue.str "test")] rfl "msg" (by decide) (by decide) (by decide),
   spec_c9.2.1 (mkExtraTextFormatter none none) recPlain
      ⟨[("msg", .str "test"), ("args", .null), ("exc_info", .null),
        ("exc_text", .null), ("message", .str "test")]⟩
      "test " rfl rfl "args" (by decide) (by decide) (by decide),
   spec_c9.2.2 (mkExtraTextFormatter none none) recTextDict c8Record
      [("text", .str "testing logging"), ("num", .int 1), ("5", .str "9"),
       ("nested", .obj [("more", .str "data")])]
      c8Line rfl rfl "levelname" (by decide) (by decide) (by decide) (by decide)
      (by decide)⟩

/-- C9 counterexample: the text formatter on a dict message attaches the
payload key `text` — absent before the call, present (with the payload
value) after — although `text` is none of the memoized derived fields. -/
theorem spec_c9_counterexample :
    recTextDict.getAttr "text" = none ∧
    (mkExtraTextFormatter none none).format recTextDict = .ok (c8Record, c8Line) ∧
    c8Record.getAttr "text" = some (.str "testing logging") ∧
    ("text" : String) ≠ "message" ∧ ("text" : String) ≠ "asctime" ∧
    ("text" : String) ≠ "exc_text" :=
  ⟨rfl, rfl, rfl, by decide, by decide, by decide⟩

/-! ### C10 -/

theorem filterExtras_nil (rec : LogRecord) (res : List String)
    (h : ∀ kv ∈ rec.attrs, kv.1 ∈ res ∨ startsUnderscore kv.1 = true) :
    filterExtras rec res = [] := by
  unfold filterExtras
  rw [List.filter_eq_nil_iff]
  intro kv hkv
  rcases h kv hkv with h2 | h2
  · simp [h2]
  · simp [h2]

theorem merge_nil_of_all_skip (rec : LogRecord) (res : List String)
    (h : ∀ kv ∈ rec.attrs, kv.1 ∈ res ∨ startsUnderscore kv.1 = true) :
    merge_record_extra rec [] res = [] := by
  rw [merge_record_extra_eq, filterExtras_nil rec res h]
  rfl

theorem mem_stdPrep_elim (fmt : String) (dfmt : Option String) (r rp : LogRecord)
    (kv : String × JValue) (h : stdPrepRecord fmt dfmt r = .ok rp)
    (hkv : kv ∈ rp.attrs) :
    kv ∈ r.attrs ∨ kv.1 = "message" ∨ kv.1 = "asctime" := by
  rcases stdPrep_ok_shape fmt dfmt r rp h with ⟨v, hv | ⟨t, ht⟩⟩
  · rw [hv] at hkv
    rcases mem_setAttr_elim _ _ _ _ hkv with h2 | h2
    · exact Or.inl h2
    · exact Or.inr (Or.inl h2)
  · rw [ht] at hkv
    rcases mem_setAttr_elim _ _ _ _ hkv with h2 | h2
    · rcases mem_setAttr_elim _ _ _ _ h2 with h3 | h3
      · exact Or.inl h3
      · exact Or.inr (Or.inl h3)
    · exact Or.inr (Or.inr h2)

theorem mem_stdExc_elim (r : LogRecord) (kv : String × JValue)
    (h : kv ∈ (stdExcRecord r).attrs) : kv ∈ r.attrs ∨ kv.1 = "exc_text" := by
  unfold stdExcRecord at h
  split at h
  · split at h
    · exact Or.inl h
    · exact mem_setAttr_elim _ _ _ _ h
  · exact Or.inl h

theorem mem_text_skip_reserved (f : ExtraTextFormatter) (k : String)
    (h : k ∈ RESERVED_ATTRS) : k ∈ f.skip_fields :=
  List.mem_append.mpr (Or.inr h)

/-- C10: when every attribute of the (payload-expanded) record is skipped —
named by the template, reserved, or private — the text formatter's output
is exactly the standard rendered line followed by one trailing space and an
empty tail. -/
theorem spec_c10 (f : ExtraTextFormatter) (r : LogRecord)
    (hattrs : ∀ kv ∈ (payloadExpandText r).attrs,
       kv.1 ∈ f.skip_fields ∨ startsUnderscore kv.1 = true) :
    f.format r = (stdFormat f.fmt f.datefmt (payloadExpandText r)).map
      (fun p => (p.1, p.2 ++ " ")) := by
  simp only [ExtraTextFormatter.format]
  match hs : stdFormat f.fmt f.datefmt (payloadExpandText r) with
  | .error e => rfl
  | .ok (ra, la) =>
      rcases stdFormat_ok_record _ _ _ _ _ hs with ⟨rp, hprep, hra⟩
      have hempty : merge_record_extra ra [] f.skip_fields = [] := by
        apply merge_nil_of_all_skip
        intro kv hkv
        rw [hra] at hkv
        rcases mem_stdExc_elim _ _ hkv with h | h
        · rcases mem_stdPrep_elim _ _ _ _ _ hprep h with h2 | h2 | h2
          · exact hattrs kv h2
          · exact Or.inl (mem_text_skip_reserved f _ (by rw [h2]; decide))
          · exact Or.inl (mem_text_skip_reserved f _ (by rw [h2]; decide))
        · exact Or.inl (mem_text_skip_reserved f _ (by rw [h]; decide))
      show Except.ok (ra, la ++ " " ++
          String.intercalate ", "
            (List.map (fun kv => kv.1 ++ ": " ++ pyStr kv.2)
              (merge_record_extra ra [] f.skip_fields))) =
        Except.map (fun p => (p.1, p.2 ++ " ")) (Except.ok (ra, la))
      rw [hempty]
      show Except.ok (ra, la ++ " " ++ "") = Except.ok (ra, la ++ " ")
      rw [String.append_empty]

/-- C10 witness: on a record with only framework attributes the text
formatter's line is the standard line plus a single trailing space. -/
theorem spec_c10_witness :
    (mkExtraTextFormatter none none).format recPlain =
      (stdFormat (mkExtraTextFormatter none none).fmt
          (mkExtraTextFormatter none none).datefmt
          (payloadExpandText recPlain)).map (fun p => (p.1, p.2 ++ " ")) :=
  spec_c10 (mkExtraTextFormatter none none) recPlain (by decide)

end JsonLogger
